import Mathlib

/-!
Verification of the JOURNEL GitHub import subsystem
(src/journel/import_github.py, storage.py, models.py, utils.py).

Shallow embedding conventions:
- Timestamps and dates are modelled as integers (days); the import code only
  compares them (filter recency) and prints them (notes provenance).
- File-system directories (projects_dir, completed_dir, archived_dir) are
  modelled as lists of Project records keyed by id; writing a file with an
  existing name replaces it (upsertProject), otherwise appends.
- Console/stdout emissions, checkpoint writes and checkpoint clears are
  modelled as an explicit event trace (Event).
- stdin is modelled as explicit input streams (Inputs); a stream entry of
  none on the AI-mode line stream models end-of-file (the code maps EOFError
  to the quit response).  Exhausted streams yield the same defaults
  (none / empty string / false).
- Unexpected storage exceptions during materialization (the concern of the
  error-handling part of the spec) are modelled by a failure oracle
  (Inputs.failures): each call to create_project_from_repo consumes one flag;
  a true flag means that call raises.  The python code has no try/except
  around materialization, so a raised flag aborts the run (LoopExit.raisedExc).
- The Config collaborator (config.py) is absent from the sources; following
  the spec it supplies the active ceiling max_active_projects (default 5),
  modelled as an explicit parameter, and a separate archive directory
  (archived_dir), modelled as the Storage.archived field.
-/

namespace Journel

/-- ASCII model of python str.lower (import input normalization). -/
def lowerChar (c : Char) : Char :=
  if 'A' ≤ c && c ≤ 'Z' then Char.ofNat (c.toNat + 32) else c

/-- Lowercase a string character by character, as python str.lower does on ASCII. -/
def lowerStr (s : String) : String :=
  String.mk (s.data.map lowerChar)

/-- Whitespace characters stripped by python str.strip and matched by the regex class backslash-s. -/
def isSpaceChar (c : Char) : Bool :=
  c == ' ' || c == '\t' || c == '\n' || c == '\r' || c == Char.ofNat 11 || c == Char.ofNat 12

/-- Model of python str.strip: drop leading and trailing whitespace. -/
def trimStr (s : String) : String :=
  String.mk (((s.data.dropWhile isSpaceChar).reverse.dropWhile isSpaceChar).reverse)

/-- Word characters of the regex class backslash-w (ASCII, after lowercasing). -/
def isWordChar (c : Char) : Bool :=
  c.isAlpha || c.isDigit || c == '_'

/-- Collapse every run of whitespace or hyphens into a single hyphen
(the re.sub of a bracketed hyphen-or-whitespace class with a plus, in
utils.slugify); the boolean argument tracks whether the previous character
belonged to such a run. -/
def collapseSepAux : List Char → Bool → List Char
  | [], _ => []
  | c :: rest, inRun =>
    if isSpaceChar c || c == '-' then
      if inRun then collapseSepAux rest true
      else '-' :: collapseSepAux rest true
    else
      c :: collapseSepAux rest false

/-- Collapse whitespace/hyphen runs to a single hyphen, starting outside a
run. -/
def collapseSep (l : List Char) : List Char :=
  collapseSepAux l false

/-- Embedding of utils.slugify: lowercase, drop characters that are neither
word characters nor whitespace nor hyphens, collapse whitespace/hyphen runs
to a single hyphen, strip leading/trailing hyphens. -/
def slugify (text : String) : String :=
  let lowered := text.data.map lowerChar
  let kept := lowered.filter (fun c => isWordChar c || isSpaceChar c || c == '-')
  let collapsed := collapseSep kept
  String.mk (((collapsed.dropWhile (· == '-')).reverse.dropWhile (· == '-')).reverse)

/-- Embedding of github_client.GitHubRepo (the CandidateItem of the spec).
pushed_at is a timestamp in days. -/
structure GitHubRepo where
  name : String
  full_name : String
  description : Option String
  html_url : String
  stargazers_count : Nat
  pushed_at : Int
  language : Option String
  topics : List String
  fork : Bool
  archived : Bool
  size : Nat
  open_issues_count : Nat
  deriving DecidableEq

/-- Embedding of models.Project (the TrackedRecord of the spec), restricted to
the fields the import subsystem reads or writes.  The models.py snapshot in
the sources omits the project_type field even though import_github.py
constructs projects with it and filters on it, cli.py reads and writes it
throughout, and the test fixtures construct projects with it; project_type
(the tracking category of the spec: regular | ongoing | maintenance) is
therefore included here, modelled from the spec.  created and last_active
are dates modelled as integers. -/
structure Project where
  id : String
  name : String
  full_name : String := ""
  status : String := "in-progress"
  tags : List String := []
  created : Int := 0
  last_active : Int := 0
  completion : Nat := 0
  priority : String := "medium"
  github : String := ""
  project_type : String := "regular"
  notes : String := ""
  deriving DecidableEq

/-- Model of a project directory write: files are keyed by project id, so a
write replaces an existing record with the same id and otherwise appends. -/
def upsertProject (dir : List Project) (p : Project) : List Project :=
  if dir.any (fun q => q.id == p.id) then
    dir.map (fun q => if q.id == p.id then p else q)
  else
    dir ++ [p]

/-- Embedding of storage.Storage state: the three project directories plus a
counter of update_project_index calls (the index-rebuild side effect; the
index file content is derived data and is not modelled further).  projects
models projects_dir, completed models completed_dir, archived models the
archive area config.archived_dir (absent from the sources; modelled from the
spec, which mandates a separate archive area).  Git auto-commit is a
silently-failing best-effort side effect outside the core and is not
modelled. -/
structure Storage where
  projects : List Project := []
  completed : List Project := []
  archived : List Project := []
  index_rebuilds : Nat := 0
  deriving DecidableEq

/-- Embedding of Storage.load_project: check the active directory, then the
completed directory; the archive area is never consulted. -/
def Storage.load_project (s : Storage) (project_id : String) : Option Project :=
  match s.projects.find? (fun p => p.id == project_id) with
  | some p => some p
  | none => s.completed.find? (fun p => p.id == project_id)

/-- Embedding of Storage.save_project: completed status goes to the completed
directory, every other status to the active projects directory. -/
def Storage.save_project (s : Storage) (p : Project) : Storage :=
  if p.status == "completed" then
    { s with completed := upsertProject s.completed p }
  else
    { s with projects := upsertProject s.projects p }

/-- Embedding of Storage.list_projects with no status filter: all records of
the active directory plus all records of the completed directory. -/
def Storage.list_projects (s : Storage) : List Project :=
  s.projects ++ s.completed

/-- Embedding of Storage.update_project_index: rebuild the machine-readable
index (modelled as a counter of rebuilds). -/
def Storage.update_project_index (s : Storage) : Storage :=
  { s with index_rebuilds := s.index_rebuilds + 1 }

/-- Filter predicate of import_github.apply_filters: an item is kept when no
exclusion rule matches.  now is the fixed current time in days; the recency
cutoff is now minus 30 times months days. -/
def keeps_repo (include_archived include_forks recent_only : Bool) (months : Nat)
    (now : Int) (repo : GitHubRepo) : Bool :=
  if repo.archived && !include_archived then false
  else if repo.fork && !include_forks && repo.stargazers_count == 0 then false
  else if repo.size == 0 then false
  else if recent_only && decide (repo.pushed_at < now - 30 * (months : Int)) then false
  else true

/-- Embedding of import_github.apply_filters: returns the kept list in source
order and the count of discarded items. -/
def apply_filters (repos : List GitHubRepo) (include_archived include_forks recent_only : Bool)
    (months : Nat) (now : Int) : List GitHubRepo × Nat :=
  match repos with
  | [] => ([], 0)
  | r :: rs =>
    let rest := apply_filters rs include_archived include_forks recent_only months now
    if keeps_repo include_archived include_forks recent_only months now r then
      (r :: rest.1, rest.2)
    else
      (rest.1, rest.2 + 1)

lemma apply_filters_fst (include_archived include_forks recent_only : Bool) (months : Nat)
    (now : Int) (repos : List GitHubRepo) :
    (apply_filters repos include_archived include_forks recent_only months now).1 =
      repos.filter (keeps_repo include_archived include_forks recent_only months now) := by
  induction repos with
  | nil => rfl
  | cons r rs ih =>
    simp only [apply_filters, List.filter_cons]
    by_cases h : keeps_repo include_archived include_forks recent_only months now r
    · simp [h, ih]
    · simp [h, ih]

lemma apply_filters_all_kept (include_archived include_forks recent_only : Bool) (months : Nat)
    (now : Int) (repos : List GitHubRepo)
    (h : ∀ r ∈ repos, keeps_repo include_archived include_forks recent_only months now r) :
    apply_filters repos include_archived include_forks recent_only months now = (repos, 0) := by
  induction repos with
  | nil => rfl
  | cons r rs ih =>
    have hr : keeps_repo include_archived include_forks recent_only months now r :=
      h r (List.mem_cons_self r rs)
    have hrs := ih (fun x hx => h x (List.mem_cons_of_mem r hx))
    simp [apply_filters, hr, hrs]

/-- C9: with the filter flags and the current time held fixed, apply_filters is
idempotent (applying it to its own kept output returns that list unchanged
with a discarded count of 0), and the kept list is a subsequence of the input
preserving relative order. -/
theorem C9_filters_idempotent_order_preserving (repos : List GitHubRepo)
    (include_archived include_forks recent_only : Bool) (months : Nat) (now : Int) :
    apply_filters (apply_filters repos include_archived include_forks recent_only months now).1
        include_archived include_forks recent_only months now =
      ((apply_filters repos include_archived include_forks recent_only months now).1, 0) ∧
    (apply_filters repos include_archived include_forks recent_only months now).1.Sublist repos := by
  constructor
  · apply apply_filters_all_kept
    intro r hr
    rw [apply_filters_fst] at hr
    exact List.of_mem_filter hr
  · rw [apply_filters_fst]
    exact List.filter_sublist repos

/-- Decision record appended to the checkpoint after each item
(import_github.py: the repos_processed entries).  The wall-clock timestamp
field is not modelled. -/
structure DecisionRecord where
  name : String
  action : String
  deriving DecidableEq

/-- Embedding of the ImportState checkpoint document
(import_github.create_new_import_state).  The started / last_updated
wall-clock timestamps are not modelled. -/
structure ImportState where
  session_id : String := ""
  total_repos : Nat := 0
  filtered_out : Nat := 0
  remaining : Nat := 0
  imported_as_active : Nat := 0
  imported_as_ongoing : Nat := 0
  imported_as_maintenance : Nat := 0
  imported_as_archived : Nat := 0
  skipped : Nat := 0
  repos_processed : List DecisionRecord := []
  current_position : Nat := 0
  deriving DecidableEq

/-- Embedding of import_github.create_new_import_state; the session id (a
wall-clock string in the code) is a parameter. -/
def create_new_import_state (session_id : String) : ImportState :=
  { session_id := session_id }

/-- Observable effects of one import run, in emission order: items presented
on the interaction channel, machine-readable records, checkpoint writes
(save_import_state, carrying the whole state) and checkpoint clears
(clear_import_state). -/
inductive Event where
  | present (name : String)
  | promptEv
  | awaitingInput
  | gateWarning (current limit : Nat)
  | resultEv (action name : String) (reason : Option String)
  | saveState (st : ImportState)
  | clearState
  | quitStatus (processed remaining : Nat)
  | quitSummary
  | batchSummary (batch : Nat)
  | batchComplete (batch totalBatches processed remaining : Nat)
  deriving DecidableEq

/-- Input streams of one run.  lines feeds AI-mode reads of stdin (none is
end-of-file); keys feeds interactive single keypresses (empty string is
end-of-file on the raw read); confirms feeds click.confirm answers;
batchResponses feeds the interactive continue-with-next-batch prompt;
failures is the exception oracle: each create_project_from_repo call consumes
one flag, and a true flag means that call raises an unexpected storage
exception.  An exhausted stream yields its end-of-file default. -/
structure Inputs where
  lines : List (Option String) := []
  keys : List String := []
  confirms : List Bool := []
  batchResponses : List String := []
  failures : List Bool := []
  deriving DecidableEq

/-- Stream pops: drop the consumed head of one input stream, leaving the
others untouched. -/
def tailLines (i : Inputs) : Inputs :=
  ⟨i.lines.tail, i.keys, i.confirms, i.batchResponses, i.failures⟩

/-- Drop the consumed keypress. -/
def tailKeys (i : Inputs) : Inputs :=
  ⟨i.lines, i.keys.tail, i.confirms, i.batchResponses, i.failures⟩

/-- Drop the consumed confirmation answer. -/
def tailConfirms (i : Inputs) : Inputs :=
  ⟨i.lines, i.keys, i.confirms.tail, i.batchResponses, i.failures⟩

/-- Drop the consumed batch-prompt response. -/
def tailBatchResponses (i : Inputs) : Inputs :=
  ⟨i.lines, i.keys, i.confirms, i.batchResponses.tail, i.failures⟩

/-- Drop the consumed failure-oracle flag. -/
def tailFailures (i : Inputs) : Inputs :=
  ⟨i.lines, i.keys, i.confirms, i.batchResponses, i.failures.tail⟩

/-- Notes body pre-seeded with import provenance
(import_github.create_project_from_repo). -/
def importNotes (repo : GitHubRepo) : String :=
  let lang_line := match repo.language with
    | some l => "Language: " ++ l
    | none => ""
  "# GitHub Import\n\nImported from: " ++ repo.html_url ++
    "\nLast activity: " ++ toString repo.pushed_at ++
    "\nStars: " ++ toString repo.stargazers_count ++ "\n" ++ lang_line ++
    "\n\n## Next Steps\n\n[Add your next steps here]\n"

/-- The Project record built by import_github.create_project_from_repo for a
given classification status (active | ongoing | maintenance | archived).
full_name is the description when present and non-empty (python description
or name), today is the creation date. -/
def mkImportProject (repo : GitHubRepo) (today : Int) (status : String) : Project :=
  let project_type :=
    if status == "ongoing" then "ongoing"
    else if status == "maintenance" then "maintenance"
    else "regular"
  let project_status :=
    if status == "active" || status == "ongoing" || status == "maintenance" then "in-progress"
    else "archived"
  { id := slugify repo.name
    name := repo.name
    full_name := match repo.description with
      | some d => if d == "" then repo.name else d
      | none => repo.name
    tags := repo.topics
    created := today
    last_active := repo.pushed_at
    status := project_status
    project_type := project_type
    github := repo.html_url
    notes := importNotes repo }

/-- Embedding of import_github.create_project_from_repo: compute the slug id;
if Storage.load_project finds it (active or completed directory only), log a
skip and return with no write and no index rebuild; otherwise build the
record and persist it, archived status to the archive area, every other
status through save_project, then rebuild the index. -/
def create_project_from_repo (repo : GitHubRepo) (store : Storage) (today : Int)
    (status : String) : Storage :=
  let project_id := slugify repo.name
  match store.load_project project_id with
  | some _ => store
  | none =>
    let project := mkImportProject repo today status
    let store' :=
      if status == "archived" then
        { store with archived := upsertProject store.archived project }
      else
        store.save_project project
    store'.update_project_index

/-- How one per-item step ended: proceed to the next item, quit requested, or
an unexpected exception escaped (nothing in the loop catches it). -/
inductive StepKind where
  | next
  | quit
  | raised
  deriving DecidableEq

/-- Result of processing one item: continuation kind, updated storage and
checkpoint state, events emitted during the item, remaining inputs. -/
structure StepOut where
  kind : StepKind
  store : Storage
  state : ImportState
  events : List Event
  inp : Inputs
  deriving DecidableEq

/-- Normalization of one AI-mode stdin read: end-of-file maps to quit (the
EOFError handler), a line is stripped then lowercased. -/
def aiResponse (line : Option String) : String :=
  match line with
  | none => "quit"
  | some s => lowerStr (trimStr s)

/-- Classification branch taken by a per-item processor, one constructor per
arm of the elif chain in the code. -/
inductive Decision where
  | quitD
  | activeD
  | ongoingD
  | maintenanceD
  | skipD
  | archiveD
  deriving DecidableEq

/-- The elif chain of process_repo_ai_mode on the normalized response:
quit/q, active/a, ongoing/o, maintenance/m, skip/s, and the default branch
(archive, Enter, or any other input) in that order. -/
def aiDecision (response : String) : Decision :=
  if response == "quit" || response == "q" then .quitD
  else if response == "active" || response == "a" then .activeD
  else if response == "ongoing" || response == "o" then .ongoingD
  else if response == "maintenance" || response == "m" then .maintenanceD
  else if response == "skip" || response == "s" then .skipD
  else .archiveD

/-- The if chain of process_repo_interactive on the lowered keypress: q, a,
o, s, and the default branch (Enter or any other key, m included).  There is
no maintenance arm on this channel. -/
def humanDecision (choice : String) : Decision :=
  if choice == "q" then .quitD
  else if choice == "a" then .activeD
  else if choice == "o" then .ongoingD
  else if choice == "s" then .skipD
  else .archiveD

/-- Embedding of import_github.process_repo_ai_mode.  Reads one line from
stdin (end-of-file maps to the quit response), normalizes it with strip and
lower, then dispatches on the elif chain (aiDecision): quit/q quits; active/a
runs the active-limit gate (at or above the ceiling it warns and downgrades
to archived, never asking); ongoing/o, maintenance/m, skip/s as named; every
other response archives.  Non-skip, non-quit branches materialize through
create_project_from_repo (consuming one failure flag; a true flag models the
call raising, which propagates out of the function).  On completion the
decision record is appended and current_position is set to the item's global
index. -/
def process_repo_ai_mode (repo : GitHubRepo) (index total : Nat) (max_active : Nat)
    (today : Int) (store : Storage) (st : ImportState) (inp : Inputs)
    (json_output : Bool) : StepOut :=
  let presentEvs : List Event :=
    if json_output then [.present repo.name, .promptEv, .awaitingInput]
    else [.present repo.name]
  let inp1 : Inputs := tailLines inp
  let response := aiResponse (inp.lines.headD none)
  let finish := fun (store' : Storage) (st' : ImportState) (extra : List Event) (inp' : Inputs) =>
    let st'' := { st' with
      repos_processed := st'.repos_processed ++
        [⟨repo.name, if response == "" then "archive" else response⟩]
      current_position := index }
    StepOut.mk .next store' st'' (presentEvs ++ extra) inp'
  match aiDecision response with
  | .quitD =>
    ⟨.quit, store, st, presentEvs, inp1⟩
  | .activeD =>
    let active_regular := store.list_projects.filter
      (fun p => p.status == "in-progress" && p.project_type == "regular")
    let fail := inp1.failures.headD false
    let inp2 : Inputs := tailFailures inp1
    if max_active ≤ active_regular.length then
      let warnEvs : List Event := [.gateWarning active_regular.length max_active]
      if fail then ⟨.raised, store, st, presentEvs ++ warnEvs, inp2⟩
      else
        finish (create_project_from_repo repo store today "archived")
          { st with imported_as_archived := st.imported_as_archived + 1 }
          (warnEvs ++ [.resultEv "imported_as_archived" repo.name (some "active_limit_hit")])
          inp2
    else
      if fail then ⟨.raised, store, st, presentEvs, inp2⟩
      else
        finish (create_project_from_repo repo store today "active")
          { st with imported_as_active := st.imported_as_active + 1 }
          [.resultEv "imported_as_active" repo.name none]
          inp2
  | .ongoingD =>
    let fail := inp1.failures.headD false
    let inp2 : Inputs := tailFailures inp1
    if fail then ⟨.raised, store, st, presentEvs, inp2⟩
    else
      finish (create_project_from_repo repo store today "ongoing")
        { st with imported_as_ongoing := st.imported_as_ongoing + 1 }
        [.resultEv "imported_as_ongoing" repo.name none]
        inp2
  | .maintenanceD =>
    let fail := inp1.failures.headD false
    let inp2 : Inputs := tailFailures inp1
    if fail then ⟨.raised, store, st, presentEvs, inp2⟩
    else
      finish (create_project_from_repo repo store today "maintenance")
        { st with imported_as_maintenance := st.imported_as_maintenance + 1 }
        [.resultEv "imported_as_maintenance" repo.name none]
        inp2
  | .skipD =>
    finish store { st with skipped := st.skipped + 1 }
      [.resultEv "skipped" repo.name none] inp1
  | .archiveD =>
    let fail := inp1.failures.headD false
    let inp2 : Inputs := tailFailures inp1
    if fail then ⟨.raised, store, st, presentEvs, inp2⟩
    else
      finish (create_project_from_repo repo store today "archived")
        { st with imported_as_archived := st.imported_as_archived + 1 }
        [.resultEv "imported_as_archived" repo.name none]
        inp2

/-- Embedding of import_github.process_repo_interactive.  Reads one lowered
keypress and dispatches on the if chain (humanDecision): q quits; a runs the
active-limit gate (at or above the ceiling it asks for an override
confirmation, default no, and archives on refusal); o is ongoing; s skips;
every other key, the empty read included, archives.  There is no maintenance
option on this channel.  Materializing branches consume one failure flag, as
in AI mode. -/
def process_repo_interactive (repo : GitHubRepo) (index total : Nat) (max_active : Nat)
    (today : Int) (store : Storage) (st : ImportState) (inp : Inputs) : StepOut :=
  let presentEvs : List Event := [.present repo.name]
  let choice := lowerStr (inp.keys.headD "")
  let inp1 : Inputs := tailKeys inp
  let finish := fun (store' : Storage) (st' : ImportState) (extra : List Event) (inp' : Inputs) =>
    let st'' := { st' with
      repos_processed := st'.repos_processed ++
        [⟨repo.name, if choice == "" then "archive" else choice⟩]
      current_position := index }
    StepOut.mk .next store' st'' (presentEvs ++ extra) inp'
  match humanDecision choice with
  | .quitD =>
    ⟨.quit, store, st, presentEvs, inp1⟩
  | .activeD =>
    let active_regular := store.list_projects.filter
      (fun p => p.status == "in-progress" && p.project_type == "regular")
    if max_active ≤ active_regular.length then
      let ok := inp1.confirms.headD false
      let inp2 : Inputs := tailConfirms inp1
      let fail := inp2.failures.headD false
      let inp3 : Inputs := tailFailures inp2
      let warnEvs : List Event := [.gateWarning active_regular.length max_active]
      if !ok then
        if fail then ⟨.raised, store, st, presentEvs ++ warnEvs, inp3⟩
        else
          finish (create_project_from_repo repo store today "archived")
            { st with imported_as_archived := st.imported_as_archived + 1 }
            warnEvs inp3
      else
        if fail then ⟨.raised, store, st, presentEvs ++ warnEvs, inp3⟩
        else
          finish (create_project_from_repo repo store today "active")
            { st with imported_as_active := st.imported_as_active + 1 }
            warnEvs inp3
    else
      let fail := inp1.failures.headD false
      let inp2 : Inputs := tailFailures inp1
      if fail then ⟨.raised, store, st, presentEvs, inp2⟩
      else
        finish (create_project_from_repo repo store today "active")
          { st with imported_as_active := st.imported_as_active + 1 }
          [.resultEv "imported_as_active" repo.name none] inp2
  | .ongoingD =>
    let fail := inp1.failures.headD false
    let inp2 : Inputs := tailFailures inp1
    if fail then ⟨.raised, store, st, presentEvs, inp2⟩
    else
      finish (create_project_from_repo repo store today "ongoing")
        { st with imported_as_ongoing := st.imported_as_ongoing + 1 }
        [.resultEv "imported_as_ongoing" repo.name none] inp2
  | .skipD =>
    finish store { st with skipped := st.skipped + 1 }
      [.resultEv "skipped" repo.name none] inp1
  | .maintenanceD | .archiveD =>
    let fail := inp1.failures.headD false
    let inp2 : Inputs := tailFailures inp1
    if fail then ⟨.raised, store, st, presentEvs, inp2⟩
    else
      finish (create_project_from_repo repo store today "archived")
        { st with imported_as_archived := st.imported_as_archived + 1 }
        [.resultEv "imported_as_archived" repo.name none] inp2

/-- Interaction channel selection: human interactive, machine plain-text, or
machine JSON-lines (the json flag implies ai_mode in the code). -/
inductive Mode where
  | interactive
  | aiPlain
  | aiJson
  deriving DecidableEq

/-- Dispatch to the per-item processor, as the loop body of
import_github.import_github_repos does on its ai_mode flag. -/
def stepRepo (mode : Mode) (repo : GitHubRepo) (index total max_active : Nat)
    (today : Int) (store : Storage) (st : ImportState) (inp : Inputs) : StepOut :=
  match mode with
  | .interactive => process_repo_interactive repo index total max_active today store st inp
  | .aiPlain => process_repo_ai_mode repo index total max_active today store st inp false
  | .aiJson => process_repo_ai_mode repo index total max_active today store st inp true

/-- How the batch loop ended: all batches consumed, paused by a quit (in-item
or at a batch boundary), or an uncaught exception escaped the loop. -/
inductive LoopExit where
  | finished
  | pausedQuit
  | raisedExc
  deriving DecidableEq

/-- Result of the batch loop: storage, checkpoint state, emitted events,
remaining inputs and how the loop ended. -/
structure LoopOut where
  store : Storage
  state : ImportState
  events : List Event
  inp : Inputs
  exit : LoopExit
  deriving DecidableEq

/-- Events emitted when an in-item quit is processed by the loop: the
checkpoint save, then the human quit summary or the JSON quit status record
(the plain AI channel prints nothing further). -/
def quitEvents (mode : Mode) (st : ImportState) (gIdx total : Nat) : List Event :=
  match mode with
  | .interactive => [.saveState st, .quitSummary]
  | .aiPlain => [.saveState st]
  | .aiJson => [.saveState st, .quitStatus gIdx (total - gIdx)]

/-- Embedding of the inner item loop of import_github.import_github_repos
(one batch): process each item at its global 1-based index; a quit result
saves the checkpoint and emits the quit events and stops everything;
otherwise the checkpoint is saved after the item (save_import_state) and the
loop continues.  An exception from the item processor propagates: nothing
here catches it, no save happens for the in-flight item. -/
def run_batch_items (mode : Mode) (items : List GitHubRepo) (gIdx total max_active : Nat)
    (today : Int) (store : Storage) (st : ImportState) (inp : Inputs) : LoopOut :=
  match items with
  | [] => ⟨store, st, [], inp, .finished⟩
  | repo :: rest =>
    let s := stepRepo mode repo gIdx total max_active today store st inp
    match s.kind with
    | .quit =>
      ⟨s.store, s.state, s.events ++ quitEvents mode s.state gIdx total, s.inp, .pausedQuit⟩
    | .raised => ⟨s.store, s.state, s.events, s.inp, .raisedExc⟩
    | .next =>
      let r := run_batch_items mode rest (gIdx + 1) total max_active today s.store s.state s.inp
      ⟨r.store, r.state, s.events ++ [.saveState s.state] ++ r.events, r.inp, r.exit⟩

/-- Fixed batch size of the import workflow (import_github.BATCH_SIZE). -/
def BATCH_SIZE : Nat := 10

/-- Partition into consecutive batches of BATCH_SIZE, structurally recursive
on a fuel argument so the kernel can evaluate it; the fuel bounds the list
length.  Each step consumes at least one element (BATCH_SIZE is positive),
so the fuel-exhausted branch is unreachable when the fuel is adequate. -/
def chunksFuel {α : Type} : Nat → List α → List (List α)
  | _, [] => []
  | 0, l => [l]
  | f + 1, x :: xs => ((x :: xs).take BATCH_SIZE) :: chunksFuel f ((x :: xs).drop BATCH_SIZE)

/-- Partition of the remaining candidate list into consecutive batches of
BATCH_SIZE (the last one may be shorter), as the slicing loop of
import_github_repos produces them. -/
def chunks {α : Type} (l : List α) : List (List α) :=
  chunksFuel l.length l

/-- Embedding of the outer batch loop of import_github.import_github_repos:
run each batch; after a full batch the human channel shows the batch summary
and, unless this was the last batch, asks to continue (quit or no saves the
checkpoint and pauses, identically to an in-item quit); the JSON channel
emits a batch-complete record and never pauses at batch boundaries; the
plain AI channel just proceeds. -/
def run_batches (mode : Mode) (bs : List (List GitHubRepo)) (batch_num total_batches : Nat)
    (gIdx total max_active : Nat) (today : Int) (store : Storage) (st : ImportState)
    (inp : Inputs) : LoopOut :=
  match bs with
  | [] => ⟨store, st, [], inp, .finished⟩
  | batch :: rest =>
    let r := run_batch_items mode batch gIdx total max_active today store st inp
    match r.exit with
    | .pausedQuit => r
    | .raisedExc => r
    | .finished =>
      let nextIdx := gIdx + batch.length
      match mode with
      | .interactive =>
        let evs1 := r.events ++ [.batchSummary batch_num]
        if batch_num < total_batches then
          let resp := lowerStr (trimStr (r.inp.batchResponses.headD ""))
          let inp' : Inputs := tailBatchResponses r.inp
          if resp == "q" || resp == "quit" || resp == "n" || resp == "no" then
            ⟨r.store, r.state, evs1 ++ [.saveState r.state, .quitSummary], inp', .pausedQuit⟩
          else
            let r2 := run_batches mode rest (batch_num + 1) total_batches nextIdx total
              max_active today r.store r.state inp'
            ⟨r2.store, r2.state, evs1 ++ r2.events, r2.inp, r2.exit⟩
        else
          let r2 := run_batches mode rest (batch_num + 1) total_batches nextIdx total
            max_active today r.store r.state r.inp
          ⟨r2.store, r2.state, evs1 ++ r2.events, r2.inp, r2.exit⟩
      | .aiPlain =>
        let r2 := run_batches mode rest (batch_num + 1) total_batches nextIdx total
          max_active today r.store r.state r.inp
        ⟨r2.store, r2.state, r.events ++ r2.events, r2.inp, r2.exit⟩
      | .aiJson =>
        let evs1 := r.events ++
          [.batchComplete batch_num total_batches (nextIdx - 1) (total - (nextIdx - 1))]
        let r2 := run_batches mode rest (batch_num + 1) total_batches nextIdx total
          max_active today r.store r.state r.inp
        ⟨r2.store, r2.state, evs1 ++ r2.events, r2.inp, r2.exit⟩

/-- Terminal outcome of one invocation: completed (checkpoint cleared),
paused (checkpoint saved, resumable), raised (an exception escaped the batch
loop), or noRepos (the kept list was empty and the run returned before
processing). -/
inductive RunOutcome where
  | completed
  | paused
  | raised
  | noRepos
  deriving DecidableEq

/-- Result of one import run over an already-fetched, already-filtered kept
list. -/
structure RunOut where
  store : Storage
  state : ImportState
  events : List Event
  outcome : RunOutcome
  deriving DecidableEq

/-- The stats update the run applies to the loaded state before the loop
(total repos fetched, filtered-out count, kept count). -/
def statsState (st : ImportState) (total_repos filtered_out remaining : Nat) : ImportState :=
  ⟨st.session_id, total_repos, filtered_out, remaining, st.imported_as_active,
    st.imported_as_ongoing, st.imported_as_maintenance, st.imported_as_archived, st.skipped,
    st.repos_processed, st.current_position⟩

/-- Embedding of the batch-processing part of import_github.import_github_repos,
from the point where the filtered kept list is known (the fetch, the filters
and the startup state selection have run): update the stats in the state,
compute the remaining suffix from current_position, split into batches of
BATCH_SIZE and run the loop; on completion clear the checkpoint, on a quit
leave the saved checkpoint in place. -/
def import_run (mode : Mode) (kept : List GitHubRepo) (total_repos filtered_out : Nat)
    (max_active : Nat) (today : Int) (store : Storage) (state0 : ImportState)
    (inp : Inputs) : RunOut :=
  if kept.isEmpty then ⟨store, state0, [], .noRepos⟩
  else
    let st : ImportState := statsState state0 total_repos filtered_out kept.length
    let start_pos := st.current_position
    let remaining_repos := kept.drop start_pos
    let total_batches := (remaining_repos.length + BATCH_SIZE - 1) / BATCH_SIZE
    let r := run_batches mode (chunks remaining_repos) 1 total_batches (start_pos + 1)
      kept.length max_active today store st inp
    match r.exit with
    | .finished => ⟨r.store, r.state, r.events ++ [.clearState], .completed⟩
    | .pausedQuit => ⟨r.store, r.state, r.events, .paused⟩
    | .raisedExc => ⟨r.store, r.state, r.events, .raised⟩

/-- Outcome of the startup state-selection logic of import_github_repos. -/
inductive StartupOutcome where
  | abort
  | proceed (st : ImportState) (cleared : Bool)
  deriving DecidableEq

/-- Embedding of the startup transition logic of import_github.import_github_repos
(lines 556 to 587): force_new clears any checkpoint and starts fresh; resume
with no saved checkpoint returns from the function in BOTH modes (in AI mode
the code assigns a fresh state on the line above, but the return that follows
is unconditional, so the fresh state is discarded and nothing is imported);
resume with a checkpoint proceeds from it; with neither flag, an existing
checkpoint auto-resumes in AI mode and asks for confirmation in human mode
(refusal clears it and starts fresh); otherwise start fresh.  saved is the
checkpoint on disk, confirm_resume the human answer, fresh the newly created
state; the cleared flag records a clear_import_state call. -/
def startup (force_new resume ai_mode : Bool) (saved : Option ImportState)
    (confirm_resume : Bool) (fresh : ImportState) : StartupOutcome :=
  if force_new then .proceed fresh true
  else if resume then
    match saved with
    | none => .abort
    | some st => .proceed st false
  else
    match saved with
    | some st =>
      if ai_mode then .proceed st false
      else if confirm_resume then .proceed st false
      else .proceed fresh true
    | none => .proceed fresh false

/-- Names of the items presented on the interaction channel, in order. -/
def presentsOf : List Event → List String
  | [] => []
  | .present n :: rest => n :: presentsOf rest
  | _ :: rest => presentsOf rest

/-- current_position of every checkpoint write, in order. -/
def savePositions : List Event → List Nat
  | [] => []
  | .saveState st :: rest => st.current_position :: savePositions rest
  | _ :: rest => savePositions rest

/-- Checkpoint-discipline scanner: pending is true when an item has been
presented with no checkpoint write since; a second presentation while
pending means an item decision was applied without being flushed, and the
scan fails (none).  Returns the final pending flag otherwise. -/
def checkSavesFrom : List Event → Bool → Option Bool
  | [], pending => some pending
  | .present _ :: rest, pending => if pending then none else checkSavesFrom rest true
  | .saveState _ :: rest, _ => checkSavesFrom rest false
  | _ :: rest, pending => checkSavesFrom rest pending

/-- A trace is checkpointed when no two presentations happen without a
checkpoint write between them. -/
def checkpointed (evs : List Event) : Bool :=
  (checkSavesFrom evs false).isSome

/-- Replay of the durable checkpoint file through a trace: saveState
overwrites it wholesale, clearState deletes it; disk is its prior content. -/
def finalCheckpoint : List Event → Option ImportState → Option ImportState
  | [], disk => disk
  | .saveState st :: rest, _ => finalCheckpoint rest (some st)
  | .clearState :: rest, _ => finalCheckpoint rest none
  | _ :: rest, disk => finalCheckpoint rest disk

/-! Helper lemmas about the materializer. -/

lemma create_archived_preserves (repo : GitHubRepo) (store : Storage) (today : Int) :
    (create_project_from_repo repo store today "archived").projects = store.projects ∧
    (create_project_from_repo repo store today "archived").completed = store.completed := by
  cases h : store.load_project (slugify repo.name) <;>
    simp [create_project_from_repo, h, Storage.update_project_index]

lemma create_skips_existing (repo : GitHubRepo) (store : Storage) (today : Int)
    (status : String) (h : (store.load_project (slugify repo.name)).isSome) :
    create_project_from_repo repo store today status = store := by
  cases hl : store.load_project (slugify repo.name) with
  | none => rw [hl] at h; simp at h
  | some p => simp [create_project_from_repo, hl]

/-! Concrete fixtures used by counterexamples and witnesses. -/

/-- A minimal candidate item with the given name (non-empty, not a fork, not
archived on the source, so no filter discards it). -/
def demoRepo (n : String) : GitHubRepo :=
  { name := n, full_name := n, description := none, html_url := "", stargazers_count := 0,
    pushed_at := 0, language := none, topics := [], fork := false, archived := false,
    size := 1, open_issues_count := 0 }

/-- A tracked record with default status in-progress and type regular, for
populating the active-limit gate. -/
def gateProject (n : String) : Project :=
  { id := n, name := n }

/-- A store already holding five tracked/default records (the default active
ceiling). -/
def store5 : Storage :=
  { projects := [gateProject "p1", gateProject "p2", gateProject "p3",
                 gateProject "p4", gateProject "p5"] }

/-- C3: the claim is that with resume requested and no checkpoint present,
human mode terminates after reporting nothing to resume while machine (AI)
mode silently starts a fresh session from position 0.  The code
(import_github.py lines 560 to 569) contradicts the machine half: in the AI
branch it assigns a fresh state, exactly as its comment announces, but the
return on the next line is unconditional, so the fresh state is discarded
and the run terminates in BOTH modes.  This theorem evaluates the embedded
startup logic at the failing input: resume with no saved checkpoint aborts
whether ai_mode is false or true. -/
theorem C3_resume_without_checkpoint (confirm : Bool) (fresh : ImportState) :
    startup false true false none confirm fresh = .abort ∧
    startup false true true none confirm fresh = .abort :=
  ⟨rfl, rfl⟩

/-- C7: materializing with decision archive, when the identifier is not yet
present anywhere in the store, builds the record with archived status,
persists it in the separate archive area (the active and completed
directories are untouched), and triggers an index rebuild. -/
theorem C7_archive_goes_to_archive_area (repo : GitHubRepo) (store : Storage) (today : Int)
    (h : store.load_project (slugify repo.name) = none)
    (ha : ∀ p ∈ store.archived, p.id ≠ slugify repo.name) :
    create_project_from_repo repo store today "archived" =
      { store with
        archived := store.archived ++ [mkImportProject repo today "archived"]
        index_rebuilds := store.index_rebuilds + 1 } ∧
    (mkImportProject repo today "archived").status = "archived" ∧
    (create_project_from_repo repo store today "archived").projects = store.projects := by
  have hid : (mkImportProject repo today "archived").id = slugify repo.name := rfl
  have hany : (store.archived.any (fun q => q.id == (mkImportProject repo today "archived").id)) = false := by
    rw [hid]
    rw [List.any_eq_false]
    intro p hp
    simpa using ha p hp
  constructor
  · simp [create_project_from_repo, h, upsertProject, hany, Storage.update_project_index]
  · refine ⟨rfl, ?_⟩
    simp [create_project_from_repo, h, Storage.update_project_index]

/-- C7 witness: materializing the candidate alpha as archived into the empty
store appends the archived record to the archive area. -/
theorem C7_witness :
    (create_project_from_repo (demoRepo "alpha") {} 0 "archived").archived =
      [mkImportProject (demoRepo "alpha") 0 "archived"] ∧
    (mkImportProject (demoRepo "alpha") 0 "archived").status = "archived" := by
  have h := C7_archive_goes_to_archive_area (demoRepo "alpha") {} 0 rfl (by simp)
  exact ⟨by rw [h.1]; simp, h.2.1⟩

/-- C4: in machine mode, an item classified active while the count of
tracked records with status in-progress and type regular is at or above the
ceiling is never promoted: the step materializes it as archived (the active
and completed directories gain nothing), increments the imported_as_archived
counter, leaves imported_as_active untouched, and emits a gate warning
carrying the current count and the configured limit.  Holds in both the
plain and the JSON sub-mode. -/
theorem C4_active_limit_downgrade (repo : GitHubRepo) (index total max_active : Nat)
    (today : Int) (store : Storage) (st : ImportState) (inp : Inputs) (json_output : Bool)
    (s : String)
    (hline : inp.lines.headD none = some s)
    (hresp : lowerStr (trimStr s) = "active" ∨ lowerStr (trimStr s) = "a")
    (hgate : max_active ≤ (store.list_projects.filter
      (fun p => p.status == "in-progress" && p.project_type == "regular")).length)
    (hfail : inp.failures.headD false = false) :
    (process_repo_ai_mode repo index total max_active today store st inp json_output).kind = .next ∧
    (process_repo_ai_mode repo index total max_active today store st inp json_output).store =
      create_project_from_repo repo store today "archived" ∧
    (process_repo_ai_mode repo index total max_active today store st inp json_output).store.projects =
      store.projects ∧
    (process_repo_ai_mode repo index total max_active today store st inp json_output).store.completed =
      store.completed ∧
    (process_repo_ai_mode repo index total max_active today store st inp json_output).state.imported_as_archived =
      st.imported_as_archived + 1 ∧
    (process_repo_ai_mode repo index total max_active today store st inp json_output).state.imported_as_active =
      st.imported_as_active ∧
    Event.gateWarning (store.list_projects.filter
        (fun p => p.status == "in-progress" && p.project_type == "regular")).length max_active ∈
      (process_repo_ai_mode repo index total max_active today store st inp json_output).events := by
  have hpc := create_archived_preserves repo store today
  simp only [List.headD_eq_head?_getD] at hline hfail
  rcases hresp with hr | hr <;> cases json_output <;>
    simp [process_repo_ai_mode, aiDecision, aiResponse, tailLines, tailFailures, hline, hr, hfail, hgate, hpc.1, hpc.2]

/-- C4 witness: with five tracked/default records already present, ceiling
five, and the machine response ACTIVE (case-insensitive), the item alpha is
archived, the archived counter becomes one, the active counter stays zero,
and the warning carries count five and limit five. -/
theorem C4_witness :
    (process_repo_ai_mode (demoRepo "alpha") 1 1 5 0 store5 (create_new_import_state "s")
      { lines := [some "ACTIVE"] } false).kind = .next ∧
    (process_repo_ai_mode (demoRepo "alpha") 1 1 5 0 store5 (create_new_import_state "s")
      { lines := [some "ACTIVE"] } false).state.imported_as_archived = 1 ∧
    (process_repo_ai_mode (demoRepo "alpha") 1 1 5 0 store5 (create_new_import_state "s")
      { lines := [some "ACTIVE"] } false).state.imported_as_active = 0 ∧
    Event.gateWarning 5 5 ∈
      (process_repo_ai_mode (demoRepo "alpha") 1 1 5 0 store5 (create_new_import_state "s")
        { lines := [some "ACTIVE"] } false).events := by
  have h := C4_active_limit_downgrade (demoRepo "alpha") 1 1 5 0 store5
    (create_new_import_state "s") { lines := [some "ACTIVE"] } false "ACTIVE"
    rfl (Or.inl (by decide)) (by decide) rfl
  refine ⟨h.1, ?_, ?_, ?_⟩
  · rw [h.2.2.2.2.1]; rfl
  · rw [h.2.2.2.2.2.1]; rfl
  · have := h.2.2.2.2.2.2
    simpa [store5, Storage.list_projects, gateProject] using this

/-- C5 counterexample: the claim says a materialize call whose identifier
already exists anywhere in the store, the archive area included, returns
without writing anything.  Materializing alpha as archived and then the same
candidate as active refutes it: the dedup check (Storage.load_project) never
consults the archive area, so the second call writes a second record with
the same identifier into the active directory, and the resulting store
differs from the first. -/
theorem C5_counterexample :
    (create_project_from_repo (demoRepo "alpha")
        (create_project_from_repo (demoRepo "alpha") {} 0 "archived") 0 "active") ≠
      (create_project_from_repo (demoRepo "alpha") {} 0 "archived") ∧
    ((create_project_from_repo (demoRepo "alpha") {} 0 "archived").archived.map Project.id) =
      ["alpha"] ∧
    ((create_project_from_repo (demoRepo "alpha")
        (create_project_from_repo (demoRepo "alpha") {} 0 "archived") 0 "active").projects.map
      Project.id) = ["alpha"] ∧
    ((create_project_from_repo (demoRepo "alpha")
        (create_project_from_repo (demoRepo "alpha") {} 0 "archived") 0 "active").archived.map
      Project.id) = ["alpha"] := by
  decide

/-- C5 amended: the dedup check consults only the active and completed
directories (Storage.load_project); when the identifier slugify(name) is
found there, the materialize call logs a skip and returns the store
unchanged, for every decision status — records in the separate archive area
are not consulted and are not protected against re-materialization. -/
theorem C5_dedup_active_completed_only (repo : GitHubRepo) (store : Storage) (today : Int)
    (status : String) (h : (store.load_project (slugify repo.name)).isSome) :
    create_project_from_repo repo store today status = store :=
  create_skips_existing repo store today status h

/-- C5 witness: with alpha already in the active directory, materializing
alpha again (any status) returns the store unchanged. -/
theorem C5_witness :
    create_project_from_repo (demoRepo "alpha") { projects := [gateProject "alpha"] } 0 "active" =
      { projects := [gateProject "alpha"] } :=
  C5_dedup_active_completed_only (demoRepo "alpha") { projects := [gateProject "alpha"] } 0
    "active" (by decide)

/-- C8 counterexample: the claim says both channels accept exactly the
tokens active, ongoing, maintenance, archive, skip, quit.  On the human
channel (process_repo_interactive) the maintenance token is not accepted:
the keypress m falls into the default branch and the item is archived (the
maintenance counter stays zero, the archived counter becomes one). -/
theorem C8_counterexample :
    (process_repo_interactive (demoRepo "alpha") 1 1 5 0 {} (create_new_import_state "s")
      { keys := ["m"] }).kind = .next ∧
    (process_repo_interactive (demoRepo "alpha") 1 1 5 0 {} (create_new_import_state "s")
      { keys := ["m"] }).state.imported_as_maintenance = 0 ∧
    (process_repo_interactive (demoRepo "alpha") 1 1 5 0 {} (create_new_import_state "s")
      { keys := ["m"] }).state.imported_as_archived = 1 ∧
    (process_repo_interactive (demoRepo "alpha") 1 1 5 0 {} (create_new_import_state "s")
      { keys := ["m"] }).store =
      create_project_from_repo (demoRepo "alpha") {} 0 "archived" := by
  decide

/-- C8 amended: token recognition per channel.  On the machine channel the
response is stripped and lowercased, then quit/q exits with nothing changed;
active/a materializes as active unless the active-limit gate downgrades to
archived; ongoing/o, maintenance/m and skip/s act as named; every other
response, the empty one included, defaults to archive.  On the human channel
the single keypress is lowercased, then q exits, a materializes as active
(below the ceiling), o as ongoing, s skips, and every other key — m and the
empty read included — defaults to archive; maintenance is not available
interactively.  Case-insensitivity is expressed by constraining only the
lowered form of the raw input. -/
theorem C8_channel_token_recognition :
    (∀ repo index total max_active (today : Int) store st inp json_output s,
      inp.lines.headD none = some s →
      (lowerStr (trimStr s) = "quit" ∨ lowerStr (trimStr s) = "q") →
      (process_repo_ai_mode repo index total max_active today store st inp json_output).kind = .quit ∧
      (process_repo_ai_mode repo index total max_active today store st inp json_output).store = store ∧
      (process_repo_ai_mode repo index total max_active today store st inp json_output).state = st) ∧
    (∀ repo index total max_active (today : Int) store st inp json_output s,
      inp.lines.headD none = some s →
      (lowerStr (trimStr s) = "active" ∨ lowerStr (trimStr s) = "a") →
      inp.failures.headD false = false →
      (process_repo_ai_mode repo index total max_active today store st inp json_output).kind = .next ∧
      (process_repo_ai_mode repo index total max_active today store st inp json_output).store =
        (if max_active ≤ (store.list_projects.filter
            (fun p => p.status == "in-progress" && p.project_type == "regular")).length then
          create_project_from_repo repo store today "archived"
        else
          create_project_from_repo repo store today "active")) ∧
    (∀ repo index total max_active (today : Int) store st inp json_output s,
      inp.lines.headD none = some s →
      (lowerStr (trimStr s) = "ongoing" ∨ lowerStr (trimStr s) = "o") →
      inp.failures.headD false = false →
      (process_repo_ai_mode repo index total max_active today store st inp json_output).kind = .next ∧
      (process_repo_ai_mode repo index total max_active today store st inp json_output).store =
        create_project_from_repo repo store today "ongoing" ∧
      (process_repo_ai_mode repo index total max_active today store st inp json_output).state.imported_as_ongoing =
        st.imported_as_ongoing + 1) ∧
    (∀ repo index total max_active (today : Int) store st inp json_output s,
      inp.lines.headD none = some s →
      (lowerStr (trimStr s) = "maintenance" ∨ lowerStr (trimStr s) = "m") →
      inp.failures.headD false = false →
      (process_repo_ai_mode repo index total max_active today store st inp json_output).kind = .next ∧
      (process_repo_ai_mode repo index total max_active today store st inp json_output).store =
        create_project_from_repo repo store today "maintenance" ∧
      (process_repo_ai_mode repo index total max_active today store st inp json_output).state.imported_as_maintenance =
        st.imported_as_maintenance + 1) ∧
    (∀ repo index total max_active (today : Int) store st inp json_output s,
      inp.lines.headD none = some s →
      (lowerStr (trimStr s) = "skip" ∨ lowerStr (trimStr s) = "s") →
      (process_repo_ai_mode repo index total max_active today store st inp json_output).kind = .next ∧
      (process_repo_ai_mode repo index total max_active today store st inp json_output).store = store ∧
      (process_repo_ai_mode repo index total max_active today store st inp json_output).state.skipped =
        st.skipped + 1) ∧
    (∀ repo index total max_active (today : Int) store st inp json_output s,
      inp.lines.headD none = some s →
      lowerStr (trimStr s) ∉
        (["quit", "q", "active", "a", "ongoing", "o", "maintenance", "m", "skip", "s"] :
          List String) →
      inp.failures.headD false = false →
      (process_repo_ai_mode repo index total max_active today store st inp json_output).kind = .next ∧
      (process_repo_ai_mode repo index total max_active today store st inp json_output).store =
        create_project_from_repo repo store today "archived" ∧
      (process_repo_ai_mode repo index total max_active today store st inp json_output).state.imported_as_archived =
        st.imported_as_archived + 1) ∧
    (∀ repo index total max_active (today : Int) store st inp,
      lowerStr (inp.keys.headD "") = "q" →
      (process_repo_interactive repo index total max_active today store st inp).kind = .quit ∧
      (process_repo_interactive repo index total max_active today store st inp).store = store ∧
      (process_repo_interactive repo index total max_active today store st inp).state = st) ∧
    (∀ repo index total max_active (today : Int) store st inp,
      lowerStr (inp.keys.headD "") = "a" →
      (store.list_projects.filter
        (fun p => p.status == "in-progress" && p.project_type == "regular")).length < max_active →
      inp.failures.headD false = false →
      (process_repo_interactive repo index total max_active today store st inp).kind = .next ∧
      (process_repo_interactive repo index total max_active today store st inp).store =
        create_project_from_repo repo store today "active" ∧
      (process_repo_interactive repo index total max_active today store st inp).state.imported_as_active =
        st.imported_as_active + 1) ∧
    (∀ repo index total max_active (today : Int) store st inp,
      lowerStr (inp.keys.headD "") = "o" →
      inp.failures.headD false = false →
      (process_repo_interactive repo index total max_active today store st inp).kind = .next ∧
      (process_repo_interactive repo index total max_active today store st inp).store =
        create_project_from_repo repo store today "ongoing" ∧
      (process_repo_interactive repo index total max_active today store st inp).state.imported_as_ongoing =
        st.imported_as_ongoing + 1) ∧
    (∀ repo index total max_active (today : Int) store st inp,
      lowerStr (inp.keys.headD "") = "s" →
      (process_repo_interactive repo index total max_active today store st inp).kind = .next ∧
      (process_repo_interactive repo index total max_active today store st inp).store = store ∧
      (process_repo_interactive repo index total max_active today store st inp).state.skipped =
        st.skipped + 1) ∧
    (∀ repo index total max_active (today : Int) store st inp,
      lowerStr (inp.keys.headD "") ∉ (["q", "a", "o", "s"] : List String) →
      inp.failures.headD false = false →
      (process_repo_interactive repo index total max_active today store st inp).kind = .next ∧
      (process_repo_interactive repo index total max_active today store st inp).store =
        create_project_from_repo repo store today "archived" ∧
      (process_repo_interactive repo index total max_active today store st inp).state.imported_as_archived =
        st.imported_as_archived + 1) := by
  refine ⟨?_, ?_, ?_, ?_, ?_, ?_, ?_, ?_, ?_, ?_, ?_⟩
  · intro repo index total max_active today store st inp json_output s hline hr
    simp only [List.headD_eq_head?_getD] at hline
    rcases hr with hr | hr <;> cases json_output <;>
      simp [process_repo_ai_mode, aiDecision, aiResponse, tailLines, tailFailures, hline, hr]
  · intro repo index total max_active today store st inp json_output s hline hr hfail
    simp only [List.headD_eq_head?_getD] at hline hfail
    rcases hr with hr | hr <;> cases json_output <;>
      by_cases hg : max_active ≤ (store.list_projects.filter
        (fun p => p.status == "in-progress" && p.project_type == "regular")).length <;>
      simp [process_repo_ai_mode, aiDecision, aiResponse, tailLines, tailFailures, hline, hr, hfail, hg]
  · intro repo index total max_active today store st inp json_output s hline hr hfail
    simp only [List.headD_eq_head?_getD] at hline hfail
    rcases hr with hr | hr <;> cases json_output <;>
      simp [process_repo_ai_mode, aiDecision, aiResponse, tailLines, tailFailures, hline, hr, hfail]
  · intro repo index total max_active today store st inp json_output s hline hr hfail
    simp only [List.headD_eq_head?_getD] at hline hfail
    rcases hr with hr | hr <;> cases json_output <;>
      simp [process_repo_ai_mode, aiDecision, aiResponse, tailLines, tailFailures, hline, hr, hfail]
  · intro repo index total max_active today store st inp json_output s hline hr
    simp only [List.headD_eq_head?_getD] at hline
    rcases hr with hr | hr <;> cases json_output <;>
      simp [process_repo_ai_mode, aiDecision, aiResponse, tailLines, tailFailures, hline, hr]
  · intro repo index total max_active today store st inp json_output s hline hr hfail
    simp only [List.headD_eq_head?_getD] at hline hfail
    simp only [List.mem_cons, List.mem_singleton, List.not_mem_nil] at hr
    push_neg at hr
    cases json_output <;>
      simp [process_repo_ai_mode, aiDecision, aiResponse, tailLines, tailFailures, hline, hfail, hr.1, hr.2.1, hr.2.2.1, hr.2.2.2.1,
        hr.2.2.2.2.1, hr.2.2.2.2.2.1, hr.2.2.2.2.2.2.1, hr.2.2.2.2.2.2.2.1,
        hr.2.2.2.2.2.2.2.2.1, hr.2.2.2.2.2.2.2.2.2]
  · intro repo index total max_active today store st inp hk
    simp only [List.headD_eq_head?_getD] at hk
    simp [process_repo_interactive, humanDecision, tailKeys, tailConfirms, tailFailures, hk]
  · intro repo index total max_active today store st inp hk hcnt hfail
    simp only [List.headD_eq_head?_getD] at hk hfail
    simp [process_repo_interactive, humanDecision, tailKeys, tailConfirms, tailFailures, hk, hfail, Nat.not_le_of_lt hcnt]
  · intro repo index total max_active today store st inp hk hfail
    simp only [List.headD_eq_head?_getD] at hk hfail
    simp [process_repo_interactive, humanDecision, tailKeys, tailConfirms, tailFailures, hk, hfail]
  · intro repo index total max_active today store st inp hk
    simp only [List.headD_eq_head?_getD] at hk
    simp [process_repo_interactive, humanDecision, tailKeys, tailConfirms, tailFailures, hk]
  · intro repo index total max_active today store st inp hk hfail
    simp only [List.headD_eq_head?_getD] at hk hfail
    simp only [List.mem_cons, List.mem_singleton, List.not_mem_nil] at hk
    push_neg at hk
    simp [process_repo_interactive, humanDecision, tailKeys, tailConfirms, tailFailures, hfail, hk.1, hk.2.1, hk.2.2.1, hk.2.2.2.1]

/-- C8 witness: the machine response MAINTENANCE (uppercase, demonstrating
case-insensitive matching) materializes as maintenance and increments the
maintenance counter; the step continues. -/
theorem C8_witness :
    (process_repo_ai_mode (demoRepo "alpha") 1 1 5 0 {} (create_new_import_state "s")
      { lines := [some "MAINTENANCE"] } false).kind = .next ∧
    (process_repo_ai_mode (demoRepo "alpha") 1 1 5 0 {} (create_new_import_state "s")
      { lines := [some "MAINTENANCE"] } false).store =
      create_project_from_repo (demoRepo "alpha") {} 0 "maintenance" ∧
    (process_repo_ai_mode (demoRepo "alpha") 1 1 5 0 {} (create_new_import_state "s")
      { lines := [some "MAINTENANCE"] } false).state.imported_as_maintenance = 1 := by
  have h := C8_channel_token_recognition
  have hm := h.2.2.2.1 (demoRepo "alpha") 1 1 5 0 {} (create_new_import_state "s")
    { lines := [some "MAINTENANCE"] } false "MAINTENANCE" rfl (Or.inl (by decide)) rfl
  exact ⟨hm.1, hm.2.1, by rw [hm.2.2]; rfl⟩

/-! Trace observables: composition lemmas. -/

lemma presentsOf_append (l1 l2 : List Event) :
    presentsOf (l1 ++ l2) = presentsOf l1 ++ presentsOf l2 := by
  induction l1 with
  | nil => rfl
  | cons e rest ih => cases e <;> simp [presentsOf, ih]

lemma savePositions_append (l1 l2 : List Event) :
    savePositions (l1 ++ l2) = savePositions l1 ++ savePositions l2 := by
  induction l1 with
  | nil => rfl
  | cons e rest ih => cases e <;> simp [savePositions, ih]

lemma checkSavesFrom_append (l1 l2 : List Event) (p : Bool) :
    checkSavesFrom (l1 ++ l2) p =
      (checkSavesFrom l1 p).bind (fun q => checkSavesFrom l2 q) := by
  induction l1 generalizing p with
  | nil => rfl
  | cons e rest ih =>
    cases e <;> simp [checkSavesFrom, ih]
    cases p <;> simp [ih]

lemma finalCheckpoint_append (l1 l2 : List Event) (d : Option ImportState) :
    finalCheckpoint (l1 ++ l2) d = finalCheckpoint l2 (finalCheckpoint l1 d) := by
  induction l1 generalizing d with
  | nil => rfl
  | cons e rest ih => cases e <;> simp [finalCheckpoint, ih]

/-- Bounded monotonicity: every element of the list lies between lo and the
final value hi, and consecutive elements are non-decreasing. -/
def monoFrom (lo : Nat) : List Nat → Nat → Prop
  | [], hi => lo ≤ hi
  | x :: rest, hi => lo ≤ x ∧ monoFrom x rest hi

lemma monoFrom_le {lo hi : Nat} : ∀ {l : List Nat}, monoFrom lo l hi → lo ≤ hi := by
  intro l
  induction l generalizing lo with
  | nil => intro h; exact h
  | cons x rest ih => intro h; exact le_trans h.1 (ih h.2)

lemma monoFrom_weaken {lo lo' hi : Nat} : ∀ {l : List Nat},
    lo' ≤ lo → monoFrom lo l hi → monoFrom lo' l hi := by
  intro l
  induction l generalizing lo lo' with
  | nil => intro hle h; exact le_trans hle h
  | cons x rest ih => intro hle h; exact ⟨le_trans hle h.1, h.2⟩

lemma monoFrom_append {lo m hi : Nat} : ∀ {A B : List Nat},
    monoFrom lo A m → monoFrom m B hi → monoFrom lo (A ++ B) hi := by
  intro A
  induction A generalizing lo with
  | nil => intro B hA hB; exact monoFrom_weaken hA hB
  | cons x rest ih => intro B hA hB; exact ⟨hA.1, ih hA.2 hB⟩

lemma monoFrom_chain {lo hi : Nat} : ∀ {l : List Nat},
    monoFrom lo l hi → List.Chain' (· ≤ ·) l := by
  intro l
  induction l generalizing lo with
  | nil => intro _; simp
  | cons x rest ih =>
    intro h
    cases rest with
    | nil => simp
    | cons y t =>
      exact List.Chain'.cons h.2.1 (ih h.2)

/-! Per-step trace lemmas: every per-item step presents exactly its item and
writes no checkpoint itself (the loop writes it right after). -/

lemma process_repo_ai_mode_trace (repo : GitHubRepo) (index total max_active : Nat)
    (today : Int) (store : Storage) (st : ImportState) (inp : Inputs) (json_output : Bool) :
    presentsOf (process_repo_ai_mode repo index total max_active today store st inp
        json_output).events = [repo.name] ∧
    savePositions (process_repo_ai_mode repo index total max_active today store st inp
        json_output).events = [] ∧
    checkSavesFrom (process_repo_ai_mode repo index total max_active today store st inp
        json_output).events false = some true ∧
    (∀ d, finalCheckpoint (process_repo_ai_mode repo index total max_active today store st inp
        json_output).events d = d) := by
  cases json_output <;>
  · simp only [process_repo_ai_mode]
    cases hd : aiDecision (aiResponse (inp.lines.headD none)) <;>
      simp only [hd] <;> (try split_ifs) <;>
      simp [presentsOf, savePositions, checkSavesFrom, finalCheckpoint]

lemma process_repo_interactive_trace (repo : GitHubRepo) (index total max_active : Nat)
    (today : Int) (store : Storage) (st : ImportState) (inp : Inputs) :
    presentsOf (process_repo_interactive repo index total max_active today store st inp).events =
      [repo.name] ∧
    savePositions (process_repo_interactive repo index total max_active today store st
        inp).events = [] ∧
    checkSavesFrom (process_repo_interactive repo index total max_active today store st
        inp).events false = some true ∧
    (∀ d, finalCheckpoint (process_repo_interactive repo index total max_active today store st
        inp).events d = d) := by
  simp only [process_repo_interactive]
  cases hd : humanDecision (lowerStr (inp.keys.headD "")) <;>
    simp only [hd] <;> (try split_ifs) <;>
    simp [presentsOf, savePositions, checkSavesFrom, finalCheckpoint]

lemma stepRepo_trace (mode : Mode) (repo : GitHubRepo) (index total max_active : Nat)
    (today : Int) (store : Storage) (st : ImportState) (inp : Inputs) :
    presentsOf (stepRepo mode repo index total max_active today store st inp).events =
      [repo.name] ∧
    savePositions (stepRepo mode repo index total max_active today store st inp).events = [] ∧
    checkSavesFrom (stepRepo mode repo index total max_active today store st inp).events false =
      some true ∧
    (∀ d, finalCheckpoint (stepRepo mode repo index total max_active today store st inp).events d
      = d) := by
  cases mode
  · exact process_repo_interactive_trace repo index total max_active today store st inp
  · exact process_repo_ai_mode_trace repo index total max_active today store st inp false
  · exact process_repo_ai_mode_trace repo index total max_active today store st inp true

lemma process_repo_ai_mode_kind_state (repo : GitHubRepo) (index total max_active : Nat)
    (today : Int) (store : Storage) (st : ImportState) (inp : Inputs) (json_output : Bool) :
    ((process_repo_ai_mode repo index total max_active today store st inp json_output).kind =
        .quit →
      (process_repo_ai_mode repo index total max_active today store st inp json_output).state =
        st ∧
      (process_repo_ai_mode repo index total max_active today store st inp json_output).store =
        store) ∧
    ((process_repo_ai_mode repo index total max_active today store st inp json_output).kind =
        .raised →
      (process_repo_ai_mode repo index total max_active today store st inp json_output).state =
        st) ∧
    ((process_repo_ai_mode repo index total max_active today store st inp json_output).kind =
        .next →
      (process_repo_ai_mode repo index total max_active today store st inp
        json_output).state.current_position = index) := by
  cases json_output <;>
  · simp only [process_repo_ai_mode]
    cases hd : aiDecision (aiResponse (inp.lines.headD none)) <;>
      simp only [hd] <;> (try split_ifs) <;> simp

lemma process_repo_interactive_kind_state (repo : GitHubRepo) (index total max_active : Nat)
    (today : Int) (store : Storage) (st : ImportState) (inp : Inputs) :
    ((process_repo_interactive repo index total max_active today store st inp).kind = .quit →
      (process_repo_interactive repo index total max_active today store st inp).state = st ∧
      (process_repo_interactive repo index total max_active today store st inp).store = store) ∧
    ((process_repo_interactive repo index total max_active today store st inp).kind = .raised →
      (process_repo_interactive repo index total max_active today store st inp).state = st) ∧
    ((process_repo_interactive repo index total max_active today store st inp).kind = .next →
      (process_repo_interactive repo index total max_active today store st
        inp).state.current_position = index) := by
  simp only [process_repo_interactive]
  cases hd : humanDecision (lowerStr (inp.keys.headD "")) <;>
    simp only [hd] <;> (try split_ifs) <;> simp

lemma stepRepo_kind_state (mode : Mode) (repo : GitHubRepo) (index total max_active : Nat)
    (today : Int) (store : Storage) (st : ImportState) (inp : Inputs) :
    ((stepRepo mode repo index total max_active today store st inp).kind = .quit →
      (stepRepo mode repo index total max_active today store st inp).state = st ∧
      (stepRepo mode repo index total max_active today store st inp).store = store) ∧
    ((stepRepo mode repo index total max_active today store st inp).kind = .raised →
      (stepRepo mode repo index total max_active today store st inp).state = st) ∧
    ((stepRepo mode repo index total max_active today store st inp).kind = .next →
      (stepRepo mode repo index total max_active today store st inp).state.current_position =
        index) := by
  cases mode
  · exact process_repo_interactive_kind_state repo index total max_active today store st inp
  · exact process_repo_ai_mode_kind_state repo index total max_active today store st inp false
  · exact process_repo_ai_mode_kind_state repo index total max_active today store st inp true

/-! Trace lemmas about the quit events and the batch loop. -/

lemma quitEvents_trace (mode : Mode) (st : ImportState) (gIdx total : Nat) :
    presentsOf (quitEvents mode st gIdx total) = [] ∧
    savePositions (quitEvents mode st gIdx total) = [st.current_position] ∧
    (∀ p, checkSavesFrom (quitEvents mode st gIdx total) p = some false) ∧
    (∀ d, finalCheckpoint (quitEvents mode st gIdx total) d = some st) := by
  cases mode <;>
    simp [quitEvents, presentsOf, savePositions, checkSavesFrom, finalCheckpoint]

lemma run_batch_items_saves (mode : Mode) (items : List GitHubRepo) :
    ∀ (gIdx total max_active : Nat) (today : Int) (store : Storage) (st : ImportState)
      (inp : Inputs), st.current_position + 1 = gIdx →
      checkSavesFrom
          (run_batch_items mode items gIdx total max_active today store st inp).events false =
        some (decide
          ((run_batch_items mode items gIdx total max_active today store st inp).exit =
            .raisedExc)) ∧
      monoFrom st.current_position
        (savePositions (run_batch_items mode items gIdx total max_active today store st inp).events)
        (run_batch_items mode items gIdx total max_active today store st
          inp).state.current_position ∧
      ((run_batch_items mode items gIdx total max_active today store st inp).exit = .finished →
        (run_batch_items mode items gIdx total max_active today store st
          inp).state.current_position + 1 = gIdx + items.length) := by
  induction items with
  | nil =>
    intro gIdx total max_active today store st inp hpos
    refine ⟨rfl, Nat.le_refl _, fun _ => by simpa using hpos⟩
  | cons repo rest ih =>
    intro gIdx total max_active today store st inp hpos
    have hstep := stepRepo_trace mode repo gIdx total max_active today store st inp
    have hks := stepRepo_kind_state mode repo gIdx total max_active today store st inp
    cases hk : (stepRepo mode repo gIdx total max_active today store st inp).kind
    case next =>
      have hpos1 := hks.2.2 hk
      have hrec := ih (gIdx + 1) total max_active today
        (stepRepo mode repo gIdx total max_active today store st inp).store
        (stepRepo mode repo gIdx total max_active today store st inp).state
        (stepRepo mode repo gIdx total max_active today store st inp).inp
        (by rw [hpos1])
      simp only [run_batch_items, hk]
      refine ⟨?_, ?_, ?_⟩
      · rw [checkSavesFrom_append, checkSavesFrom_append, hstep.2.2.1]
        simpa [checkSavesFrom] using hrec.1
      · simp only [savePositions_append, hstep.2.1, List.nil_append, savePositions,
          List.cons_append, List.append_nil]
        exact ⟨by omega, hrec.2.1⟩
      · intro hfin
        have := hrec.2.2 hfin
        simp only [List.length_cons]
        omega
    case quit =>
      have hq := hks.1 hk
      have hqe := quitEvents_trace mode
        (stepRepo mode repo gIdx total max_active today store st inp).state gIdx total
      simp only [run_batch_items, hk]
      refine ⟨?_, ?_, ?_⟩
      · rw [checkSavesFrom_append, hstep.2.2.1]
        simp [hqe.2.2.1]
      · rw [savePositions_append, hstep.2.1, List.nil_append, hqe.2.1, hq.1]
        exact ⟨Nat.le_refl _, Nat.le_refl _⟩
      · intro hfin
        simp at hfin
    case raised =>
      have hr := hks.2.1 hk
      simp only [run_batch_items, hk]
      refine ⟨by simp [hstep.2.2.1], ?_, ?_⟩
      · rw [hstep.2.1, hr]
        exact Nat.le_refl _
      · intro hfin
        simp at hfin

lemma run_batches_saves (mode : Mode) (bs : List (List GitHubRepo)) :
    ∀ (batch_num total_batches gIdx total max_active : Nat) (today : Int) (store : Storage)
      (st : ImportState) (inp : Inputs), st.current_position + 1 = gIdx →
      checkSavesFrom
          (run_batches mode bs batch_num total_batches gIdx total max_active today store st
            inp).events false =
        some (decide
          ((run_batches mode bs batch_num total_batches gIdx total max_active today store st
            inp).exit = .raisedExc)) ∧
      monoFrom st.current_position
        (savePositions
          (run_batches mode bs batch_num total_batches gIdx total max_active today store st
            inp).events)
        (run_batches mode bs batch_num total_batches gIdx total max_active today store st
          inp).state.current_position ∧
      ((run_batches mode bs batch_num total_batches gIdx total max_active today store st
          inp).exit = .finished →
        (run_batches mode bs batch_num total_batches gIdx total max_active today store st
          inp).state.current_position + 1 = gIdx + bs.flatten.length) := by
  induction bs with
  | nil =>
    intro batch_num total_batches gIdx total max_active today store st inp hpos
    refine ⟨rfl, Nat.le_refl _, fun _ => by simpa using hpos⟩
  | cons b rest ih =>
    intro batch_num total_batches gIdx total max_active today store st inp hpos
    have hin := run_batch_items_saves mode b gIdx total max_active today store st inp hpos
    cases he : (run_batch_items mode b gIdx total max_active today store st inp).exit
    case pausedQuit =>
      rw [he] at hin
      simp only [run_batches, he]
      exact ⟨by simpa using hin.1, hin.2.1, by simp⟩
    case raisedExc =>
      rw [he] at hin
      simp only [run_batches, he]
      exact ⟨by simpa using hin.1, hin.2.1, by simp⟩
    case finished =>
      rw [he] at hin
      have hnext : (run_batch_items mode b gIdx total max_active today store st
          inp).state.current_position + 1 = gIdx + b.length := hin.2.2 rfl
      have hcs : checkSavesFrom
          (run_batch_items mode b gIdx total max_active today store st inp).events false =
          some false := by simpa using hin.1
      cases mode
      case interactive =>
        by_cases hlt : batch_num < total_batches
        · by_cases hq : (lowerStr (trimStr
              ((run_batch_items Mode.interactive b gIdx total max_active today store st
                inp).inp.batchResponses.headD "")) == "q"
              || lowerStr (trimStr ((run_batch_items Mode.interactive b gIdx total max_active
                today store st inp).inp.batchResponses.headD "")) == "quit"
              || lowerStr (trimStr ((run_batch_items Mode.interactive b gIdx total max_active
                today store st inp).inp.batchResponses.headD "")) == "n"
              || lowerStr (trimStr ((run_batch_items Mode.interactive b gIdx total max_active
                today store st inp).inp.batchResponses.headD "")) == "no") = true
          · simp only [run_batches, he, if_pos hlt, if_pos hq]
            refine ⟨?_, ?_, by simp⟩
            · simp [checkSavesFrom_append, hcs, checkSavesFrom]
            · simp only [savePositions_append, savePositions, List.append_nil]
              exact monoFrom_append hin.2.1 ⟨Nat.le_refl _, Nat.le_refl _⟩
          · have hrec := ih (batch_num + 1) total_batches (gIdx + b.length) total max_active
              today
              (run_batch_items Mode.interactive b gIdx total max_active today store st
                inp).store
              (run_batch_items Mode.interactive b gIdx total max_active today store st
                inp).state
              (tailBatchResponses (run_batch_items Mode.interactive b gIdx total max_active
                today store st inp).inp)
              hnext
            simp only [run_batches, he, if_pos hlt, if_neg hq]
            refine ⟨?_, ?_, ?_⟩
            · simp [checkSavesFrom_append, hcs, checkSavesFrom, hrec.1]
            · simp only [savePositions_append, savePositions, List.append_nil]
              exact monoFrom_append hin.2.1 hrec.2.1
            · intro hfin
              have := hrec.2.2 hfin
              simp only [List.flatten_cons, List.length_append]
              omega
        · have hrec := ih (batch_num + 1) total_batches (gIdx + b.length) total max_active
            today
            (run_batch_items Mode.interactive b gIdx total max_active today store st inp).store
            (run_batch_items Mode.interactive b gIdx total max_active today store st inp).state
            (run_batch_items Mode.interactive b gIdx total max_active today store st inp).inp
            hnext
          simp only [run_batches, he, if_neg hlt]
          refine ⟨?_, ?_, ?_⟩
          · simp [checkSavesFrom_append, hcs, checkSavesFrom, hrec.1]
          · simp only [savePositions_append, savePositions, List.append_nil]
            exact monoFrom_append hin.2.1 hrec.2.1
          · intro hfin
            have := hrec.2.2 hfin
            simp only [List.flatten_cons, List.length_append]
            omega
      case aiPlain =>
        have hrec := ih (batch_num + 1) total_batches (gIdx + b.length) total max_active today
          (run_batch_items Mode.aiPlain b gIdx total max_active today store st inp).store
          (run_batch_items Mode.aiPlain b gIdx total max_active today store st inp).state
          (run_batch_items Mode.aiPlain b gIdx total max_active today store st inp).inp
          hnext
        simp only [run_batches, he]
        refine ⟨?_, ?_, ?_⟩
        · simp [checkSavesFrom_append, hcs, hrec.1]
        · simp only [savePositions_append]
          exact monoFrom_append hin.2.1 hrec.2.1
        · intro hfin
          have := hrec.2.2 hfin
          simp only [List.flatten_cons, List.length_append]
          omega
      case aiJson =>
        have hrec := ih (batch_num + 1) total_batches (gIdx + b.length) total max_active today
          (run_batch_items Mode.aiJson b gIdx total max_active today store st inp).store
          (run_batch_items Mode.aiJson b gIdx total max_active today store st inp).state
          (run_batch_items Mode.aiJson b gIdx total max_active today store st inp).inp
          hnext
        simp only [run_batches, he]
        refine ⟨?_, ?_, ?_⟩
        · simp [checkSavesFrom_append, hcs, checkSavesFrom, hrec.1]
        · simp only [savePositions_append, savePositions, List.append_nil]
          exact monoFrom_append hin.2.1 hrec.2.1
        · intro hfin
          have := hrec.2.2 hfin
          simp only [List.flatten_cons, List.length_append]
          omega

/-- C1: in every import run, whatever the interaction mode, the inputs, and
the loaded checkpoint, the event trace is checkpoint-disciplined: after every
item decision the whole ImportState is written to the checkpoint before the
next item is presented (checkpointed), and the current_position values of
the successive checkpoint writes are monotonically non-decreasing, so an
abrupt interruption loses at most the one in-flight item. -/
theorem C1_checkpoint_after_every_item (mode : Mode) (kept : List GitHubRepo)
    (total_repos filtered_out max_active : Nat) (today : Int) (store : Storage)
    (state0 : ImportState) (inp : Inputs) :
    checkpointed
      (import_run mode kept total_repos filtered_out max_active today store state0
        inp).events = true ∧
    List.Chain' (· ≤ ·)
      (savePositions
        (import_run mode kept total_repos filtered_out max_active today store state0
          inp).events) := by
  by_cases hk : kept.isEmpty
  · simp [import_run, hk, checkpointed, checkSavesFrom, savePositions]
  · have hb := run_batches_saves mode
      (chunks (kept.drop (statsState state0 total_repos filtered_out
        kept.length).current_position)) 1
      (((kept.drop (statsState state0 total_repos filtered_out
        kept.length).current_position).length + BATCH_SIZE - 1) / BATCH_SIZE)
      ((statsState state0 total_repos filtered_out kept.length).current_position + 1)
      kept.length max_active today store
      (statsState state0 total_repos filtered_out kept.length) inp rfl
    have hmono := monoFrom_chain hb.2.1
    have hrun : import_run mode kept total_repos filtered_out max_active today store state0
        inp =
        match (run_batches mode
        (chunks (kept.drop (statsState state0 total_repos filtered_out
          kept.length).current_position)) 1
        (((kept.drop (statsState state0 total_repos filtered_out
          kept.length).current_position).length + BATCH_SIZE - 1) / BATCH_SIZE)
        ((statsState state0 total_repos filtered_out kept.length).current_position + 1)
        kept.length max_active today store
        (statsState state0 total_repos filtered_out kept.length) inp).exit with
        | .finished =>
          ⟨(run_batches mode
        (chunks (kept.drop (statsState state0 total_repos filtered_out
          kept.length).current_position)) 1
        (((kept.drop (statsState state0 total_repos filtered_out
          kept.length).current_position).length + BATCH_SIZE - 1) / BATCH_SIZE)
        ((statsState state0 total_repos filtered_out kept.length).current_position + 1)
        kept.length max_active today store
        (statsState state0 total_repos filtered_out kept.length) inp).store, (run_batches mode
        (chunks (kept.drop (statsState state0 total_repos filtered_out
          kept.length).current_position)) 1
        (((kept.drop (statsState state0 total_repos filtered_out
          kept.length).current_position).length + BATCH_SIZE - 1) / BATCH_SIZE)
        ((statsState state0 total_repos filtered_out kept.length).current_position + 1)
        kept.length max_active today store
        (statsState state0 total_repos filtered_out kept.length) inp).state, (run_batches mode
        (chunks (kept.drop (statsState state0 total_repos filtered_out
          kept.length).current_position)) 1
        (((kept.drop (statsState state0 total_repos filtered_out
          kept.length).current_position).length + BATCH_SIZE - 1) / BATCH_SIZE)
        ((statsState state0 total_repos filtered_out kept.length).current_position + 1)
        kept.length max_active today store
        (statsState state0 total_repos filtered_out kept.length) inp).events ++ [.clearState], .completed⟩
        | .pausedQuit => ⟨(run_batches mode
        (chunks (kept.drop (statsState state0 total_repos filtered_out
          kept.length).current_position)) 1
        (((kept.drop (statsState state0 total_repos filtered_out
          kept.length).current_position).length + BATCH_SIZE - 1) / BATCH_SIZE)
        ((statsState state0 total_repos filtered_out kept.length).current_position + 1)
        kept.length max_active today store
        (statsState state0 total_repos filtered_out kept.length) inp).store, (run_batches mode
        (chunks (kept.drop (statsState state0 total_repos filtered_out
          kept.length).current_position)) 1
        (((kept.drop (statsState state0 total_repos filtered_out
          kept.length).current_position).length + BATCH_SIZE - 1) / BATCH_SIZE)
        ((statsState state0 total_repos filtered_out kept.length).current_position + 1)
        kept.length max_active today store
        (statsState state0 total_repos filtered_out kept.length) inp).state, (run_batches mode
        (chunks (kept.drop (statsState state0 total_repos filtered_out
          kept.length).current_position)) 1
        (((kept.drop (statsState state0 total_repos filtered_out
          kept.length).current_position).length + BATCH_SIZE - 1) / BATCH_SIZE)
        ((statsState state0 total_repos filtered_out kept.length).current_position + 1)
        kept.length max_active today store
        (statsState state0 total_repos filtered_out kept.length) inp).events, .paused⟩
        | .raisedExc => ⟨(run_batches mode
        (chunks (kept.drop (statsState state0 total_repos filtered_out
          kept.length).current_position)) 1
        (((kept.drop (statsState state0 total_repos filtered_out
          kept.length).current_position).length + BATCH_SIZE - 1) / BATCH_SIZE)
        ((statsState state0 total_repos filtered_out kept.length).current_position + 1)
        kept.length max_active today store
        (statsState state0 total_repos filtered_out kept.length) inp).store, (run_batches mode
        (chunks (kept.drop (statsState state0 total_repos filtered_out
          kept.length).current_position)) 1
        (((kept.drop (statsState state0 total_repos filtered_out
          kept.length).current_position).length + BATCH_SIZE - 1) / BATCH_SIZE)
        ((statsState state0 total_repos filtered_out kept.length).current_position + 1)
        kept.length max_active today store
        (statsState state0 total_repos filtered_out kept.length) inp).state, (run_batches mode
        (chunks (kept.drop (statsState state0 total_repos filtered_out
          kept.length).current_position)) 1
        (((kept.drop (statsState state0 total_repos filtered_out
          kept.length).current_position).length + BATCH_SIZE - 1) / BATCH_SIZE)
        ((statsState state0 total_repos filtered_out kept.length).current_position + 1)
        kept.length max_active today store
        (statsState state0 total_repos filtered_out kept.length) inp).events, .raised⟩ := by
      unfold import_run
      rw [if_neg hk]
    rw [hrun]
    cases he : (run_batches mode
        (chunks (kept.drop (statsState state0 total_repos filtered_out
          kept.length).current_position)) 1
        (((kept.drop (statsState state0 total_repos filtered_out
          kept.length).current_position).length + BATCH_SIZE - 1) / BATCH_SIZE)
        ((statsState state0 total_repos filtered_out kept.length).current_position + 1)
        kept.length max_active today store
        (statsState state0 total_repos filtered_out kept.length) inp).exit <;> rw [he] at hb <;> simp only [he]
    · constructor
      · simp only [checkpointed, checkSavesFrom_append, hb.1]
        simp [checkSavesFrom]
      · simp only [savePositions_append, savePositions, List.append_nil]
        exact monoFrom_chain hb.2.1
    · exact ⟨by simp only [checkpointed, hb.1]; simp, monoFrom_chain hb.2.1⟩
    · exact ⟨by simp only [checkpointed, hb.1]; simp, monoFrom_chain hb.2.1⟩

/-! Sequential-execution lemmas for the AI (machine) channel: one stdin line
is consumed per item, quit and end-of-file pause, a failure flag aborts. -/

/-- The stdin entry at offset k of the remaining stream (an exhausted stream
reads as end-of-file). -/
def lineAt (inp : Inputs) (k : Nat) : Option String :=
  inp.lines.getD k none

/-- An AI-mode stdin entry that triggers the quit branch: end-of-file, or a
line normalizing to quit or q. -/
def quitLine (l : Option String) : Bool :=
  decide (aiDecision (aiResponse l) = Decision.quitD)

/-- An AI-mode stdin entry that triggers the skip branch. -/
def skipLine (l : Option String) : Bool :=
  decide (aiDecision (aiResponse l) = Decision.skipD)

lemma lineAt_zero (inp : Inputs) : lineAt inp 0 = inp.lines.headD none := by
  cases h : inp.lines <;> simp [lineAt, h]

lemma getD_tail {α : Type} (l : List α) (k : Nat) (d : α) :
    l.tail.getD k d = l.getD (k + 1) d := by
  cases l <;> simp [List.getD]

lemma stepRepo_ai_quit (mode : Mode) (hm : mode ≠ .interactive) (repo : GitHubRepo)
    (index total max_active : Nat) (today : Int) (store : Storage) (st : ImportState)
    (inp : Inputs) (hq : quitLine (inp.lines.headD none) = true) :
    (stepRepo mode repo index total max_active today store st inp).kind = .quit ∧
    (stepRepo mode repo index total max_active today store st inp).inp = tailLines inp := by
  have hd : aiDecision (aiResponse (inp.lines.headD none)) = Decision.quitD :=
    of_decide_eq_true hq
  simp only [List.headD_eq_head?_getD] at hd
  cases mode
  · exact absurd rfl hm
  all_goals
    simp [stepRepo, process_repo_ai_mode, hd]

lemma stepRepo_ai_next (mode : Mode) (hm : mode ≠ .interactive) (repo : GitHubRepo)
    (index total max_active : Nat) (today : Int) (store : Storage) (st : ImportState)
    (inp : Inputs) (hq : quitLine (inp.lines.headD none) = false)
    (hf : inp.failures.headD false = false) :
    (stepRepo mode repo index total max_active today store st inp).kind = .next ∧
    (stepRepo mode repo index total max_active today store st inp).inp.lines =
      inp.lines.tail ∧
    (stepRepo mode repo index total max_active today store st inp).inp.failures =
      (if skipLine (inp.lines.headD none) then inp.failures else inp.failures.tail) := by
  simp only [List.headD_eq_head?_getD] at hf
  cases mode
  · exact absurd rfl hm
  all_goals
  · cases hd : aiDecision (aiResponse (inp.lines.head?.getD none)) <;>
      simp only [List.headD_eq_head?_getD, quitLine, hd, decide_eq_true_eq] at hq ⊢ <;>
      (try simp [stepRepo, process_repo_ai_mode, hd, skipLine, tailLines, tailFailures, hf]) <;>
      (try split_ifs) <;>
      simp_all [tailLines, tailFailures]

lemma stepRepo_ai_raised (mode : Mode) (hm : mode ≠ .interactive) (repo : GitHubRepo)
    (index total max_active : Nat) (today : Int) (store : Storage) (st : ImportState)
    (inp : Inputs) (hq : quitLine (inp.lines.headD none) = false)
    (hs : skipLine (inp.lines.headD none) = false)
    (hf : inp.failures.headD false = true) :
    (stepRepo mode repo index total max_active today store st inp).kind = .raised := by
  simp only [List.headD_eq_head?_getD] at hf
  cases mode
  · exact absurd rfl hm
  all_goals
  · cases hd : aiDecision (aiResponse (inp.lines.head?.getD none)) <;>
      simp only [List.headD_eq_head?_getD, quitLine, skipLine, hd, decide_eq_true_eq]
        at hq hs ⊢ <;>
      (try simp [stepRepo, process_repo_ai_mode, hd, tailLines, tailFailures, hf]) <;>
      (try split_ifs) <;>
      simp_all

lemma run_batch_items_quit_seq (mode : Mode) (hm : mode ≠ .interactive)
    (items : List GitHubRepo) :
    ∀ (j gIdx total max_active : Nat) (today : Int) (store : Storage) (st : ImportState)
      (inp : Inputs),
      st.current_position + 1 = gIdx →
      inp.failures = [] →
      j < items.length →
      (∀ k, k < j → quitLine (lineAt inp k) = false) →
      quitLine (lineAt inp j) = true →
      (run_batch_items mode items gIdx total max_active today store st inp).exit =
        .pausedQuit ∧
      (run_batch_items mode items gIdx total max_active today store st
        inp).state.current_position = st.current_position + j ∧
      (presentsOf (run_batch_items mode items gIdx total max_active today store st
        inp).events).length = j + 1 ∧
      (∀ d, finalCheckpoint (run_batch_items mode items gIdx total max_active today store st
          inp).events d =
        some (run_batch_items mode items gIdx total max_active today store st inp).state) := by
  induction items with
  | nil =>
    intro j gIdx total max_active today store st inp _ _ hj _ _
    simp at hj
  | cons repo rest ih =>
    intro j gIdx total max_active today store st inp hpos hfail hj hpre hq
    have hstep := stepRepo_trace mode repo gIdx total max_active today store st inp
    have hks := stepRepo_kind_state mode repo gIdx total max_active today store st inp
    cases j with
    | zero =>
      rw [lineAt_zero] at hq
      have hquit := stepRepo_ai_quit mode hm repo gIdx total max_active today store st inp hq
      have hfrozen := hks.1 hquit.1
      have hqe := quitEvents_trace mode
        (stepRepo mode repo gIdx total max_active today store st inp).state gIdx total
      simp only [run_batch_items, hquit.1]
      refine ⟨by simp, by simp [hfrozen.1], ?_, ?_⟩
      · rw [presentsOf_append, hstep.1, hqe.1]
        simp
      · intro d
        rw [finalCheckpoint_append, hstep.2.2.2 d, hqe.2.2.2 _]
    | succ j' =>
      have hq0 : quitLine (lineAt inp 0) = false := hpre 0 (Nat.succ_pos _)
      rw [lineAt_zero] at hq0
      have hf0 : inp.failures.headD false = false := by rw [hfail]; rfl
      have hnext := stepRepo_ai_next mode hm repo gIdx total max_active today store st inp
        hq0 hf0
      have hpos1 := hks.2.2 hnext.1
      have hfails : (stepRepo mode repo gIdx total max_active today store st
          inp).inp.failures = [] := by
        rw [hnext.2.2, hfail]
        split_ifs <;> rfl
      have hshift : ∀ k, lineAt (stepRepo mode repo gIdx total max_active today store st
          inp).inp k = lineAt inp (k + 1) := by
        intro k
        rw [lineAt, hnext.2.1, getD_tail]
        rfl
      have hrec := ih j' (gIdx + 1) total max_active today
        (stepRepo mode repo gIdx total max_active today store st inp).store
        (stepRepo mode repo gIdx total max_active today store st inp).state
        (stepRepo mode repo gIdx total max_active today store st inp).inp
        (by rw [hpos1]) hfails
        (by simpa using Nat.lt_of_succ_lt_succ hj)
        (fun k hk => by rw [hshift k]; exact hpre (k + 1) (by omega))
        (by rw [hshift j']; exact hq)
      simp only [run_batch_items, hnext.1]
      refine ⟨hrec.1, ?_, ?_, ?_⟩
      · rw [hrec.2.1, hpos1]
        omega
      · rw [presentsOf_append, presentsOf_append, hstep.1]
        simp only [presentsOf, List.length_append, List.length_cons, List.length_nil,
          List.nil_append]
        rw [hrec.2.2.1]
        omega
      · intro d
        rw [finalCheckpoint_append, finalCheckpoint_append, hstep.2.2.2 d]
        simp only [finalCheckpoint]
        exact hrec.2.2.2 _

lemma run_batch_items_complete_seq (mode : Mode) (hm : mode ≠ .interactive)
    (items : List GitHubRepo) :
    ∀ (gIdx total max_active : Nat) (today : Int) (store : Storage) (st : ImportState)
      (inp : Inputs),
      st.current_position + 1 = gIdx →
      inp.failures = [] →
      (∀ k, k < items.length → quitLine (lineAt inp k) = false) →
      (run_batch_items mode items gIdx total max_active today store st inp).exit = .finished ∧
      (run_batch_items mode items gIdx total max_active today store st
        inp).state.current_position = st.current_position + items.length ∧
      (presentsOf (run_batch_items mode items gIdx total max_active today store st
        inp).events).length = items.length ∧
      (run_batch_items mode items gIdx total max_active today store st inp).inp.lines =
        inp.lines.drop items.length ∧
      (run_batch_items mode items gIdx total max_active today store st inp).inp.failures =
        [] ∧
      (∀ d, finalCheckpoint (run_batch_items mode items gIdx total max_active today store st
          inp).events d =
        if items.isEmpty then d
        else some (run_batch_items mode items gIdx total max_active today store st
          inp).state) := by
  induction items with
  | nil =>
    intro gIdx total max_active today store st inp hpos hfail _
    exact ⟨rfl, rfl, rfl, rfl, hfail, fun d => rfl⟩
  | cons repo rest ih =>
    intro gIdx total max_active today store st inp hpos hfail hpre
    have hstep := stepRepo_trace mode repo gIdx total max_active today store st inp
    have hks := stepRepo_kind_state mode repo gIdx total max_active today store st inp
    have hq0 : quitLine (lineAt inp 0) = false := hpre 0 (Nat.succ_pos _)
    rw [lineAt_zero] at hq0
    have hf0 : inp.failures.headD false = false := by rw [hfail]; rfl
    have hnext := stepRepo_ai_next mode hm repo gIdx total max_active today store st inp
      hq0 hf0
    have hpos1 := hks.2.2 hnext.1
    have hfails : (stepRepo mode repo gIdx total max_active today store st
        inp).inp.failures = [] := by
      rw [hnext.2.2, hfail]
      split_ifs <;> rfl
    have hshift : ∀ k, lineAt (stepRepo mode repo gIdx total max_active today store st
        inp).inp k = lineAt inp (k + 1) := by
      intro k
      rw [lineAt, hnext.2.1, getD_tail]
      rfl
    have hrec := ih (gIdx + 1) total max_active today
      (stepRepo mode repo gIdx total max_active today store st inp).store
      (stepRepo mode repo gIdx total max_active today store st inp).state
      (stepRepo mode repo gIdx total max_active today store st inp).inp
      (by rw [hpos1]) hfails
      (fun k hk => by rw [hshift k]; exact hpre (k + 1) (by simpa using Nat.succ_lt_succ hk))
    simp only [run_batch_items, hnext.1]
    refine ⟨hrec.1, ?_, ?_, ?_, hrec.2.2.2.2.1, ?_⟩
    · rw [hrec.2.1, hpos1]
      simp only [List.length_cons]
      omega
    · rw [presentsOf_append, presentsOf_append, hstep.1]
      simp only [presentsOf, List.length_append, List.length_cons, List.length_nil,
        List.nil_append]
      rw [hrec.2.2.1]
      omega
    · rw [hrec.2.2.2.1, hnext.2.1]
      rw [← List.drop_one, List.drop_drop]
      simp [Nat.add_comm]
    · intro d
      rw [finalCheckpoint_append, finalCheckpoint_append, hstep.2.2.2 d]
      simp only [finalCheckpoint]
      rw [hrec.2.2.2.2.2 _]
      by_cases hre : rest.isEmpty
      · have hrn : rest = [] := List.isEmpty_iff.mp hre
        subst hrn
        simp [run_batch_items]
      · simp [hre]

lemma getD_drop {α : Type} (n : Nat) : ∀ (l : List α) (k : Nat) (d : α),
    (l.drop n).getD k d = l.getD (n + k) d := by
  induction n with
  | zero => intro l k d; simp
  | succ n ih =>
    intro l k d
    cases l with
    | nil => simp [List.getD]
    | cons a t =>
      rw [List.drop_succ_cons, ih t k d, Nat.succ_add, List.getD_cons_succ]

lemma run_batches_quit_seq (mode : Mode) (hm : mode ≠ .interactive)
    (bs : List (List GitHubRepo)) :
    ∀ (j batch_num total_batches gIdx total max_active : Nat) (today : Int) (store : Storage)
      (st : ImportState) (inp : Inputs),
      st.current_position + 1 = gIdx →
      inp.failures = [] →
      j < bs.flatten.length →
      (∀ k, k < j → quitLine (lineAt inp k) = false) →
      quitLine (lineAt inp j) = true →
      (run_batches mode bs batch_num total_batches gIdx total max_active today store st
        inp).exit = .pausedQuit ∧
      (run_batches mode bs batch_num total_batches gIdx total max_active today store st
        inp).state.current_position = st.current_position + j ∧
      (presentsOf (run_batches mode bs batch_num total_batches gIdx total max_active today
        store st inp).events).length = j + 1 ∧
      (∀ d, finalCheckpoint (run_batches mode bs batch_num total_batches gIdx total max_active
          today store st inp).events d =
        some (run_batches mode bs batch_num total_batches gIdx total max_active today store st
          inp).state) := by
  induction bs with
  | nil =>
    intro j batch_num total_batches gIdx total max_active today store st inp _ _ hj _ _
    simp at hj
  | cons b rest ih =>
    intro j batch_num total_batches gIdx total max_active today store st inp hpos hfail hj
      hpre hq
    by_cases hjb : j < b.length
    · have hin := run_batch_items_quit_seq mode hm b j gIdx total max_active today store st
        inp hpos hfail hjb hpre hq
      simp only [run_batches, hin.1]
      exact ⟨by simp, hin.2.1, hin.2.2.1, hin.2.2.2⟩
    · have hble : b.length ≤ j := Nat.le_of_not_lt hjb
      have hcomp := run_batch_items_complete_seq mode hm b gIdx total max_active today store
        st inp hpos hfail (fun k hk => hpre k (by omega))
      have hshift : ∀ k, lineAt (run_batch_items mode b gIdx total max_active today store st
          inp).inp k = lineAt inp (b.length + k) := by
        intro k
        rw [lineAt, hcomp.2.2.2.1, getD_drop]
        rfl
      have hjrest : j - b.length < rest.flatten.length := by
        simp only [List.flatten_cons, List.length_append] at hj
        omega
      cases mode
      · exact absurd rfl hm
      · have hrec := ih (j - b.length) (batch_num + 1) total_batches (gIdx + b.length) total
          max_active today
          (run_batch_items Mode.aiPlain b gIdx total max_active today store st inp).store
          (run_batch_items Mode.aiPlain b gIdx total max_active today store st inp).state
          (run_batch_items Mode.aiPlain b gIdx total max_active today store st inp).inp
          (by rw [hcomp.2.1]; omega) hcomp.2.2.2.2.1 hjrest
          (fun k hk => by rw [hshift k]; exact hpre (b.length + k) (by omega))
          (by rw [hshift (j - b.length)]
              have : b.length + (j - b.length) = j := by omega
              rw [this]
              exact hq)
        simp only [run_batches, hcomp.1]
        refine ⟨hrec.1, ?_, ?_, ?_⟩
        · rw [hrec.2.1, hcomp.2.1]
          omega
        · rw [presentsOf_append]
          simp only [List.length_append]
          rw [hcomp.2.2.1, hrec.2.2.1]
          omega
        · intro d
          rw [finalCheckpoint_append]
          exact hrec.2.2.2 _
      · have hrec := ih (j - b.length) (batch_num + 1) total_batches (gIdx + b.length) total
          max_active today
          (run_batch_items Mode.aiJson b gIdx total max_active today store st inp).store
          (run_batch_items Mode.aiJson b gIdx total max_active today store st inp).state
          (run_batch_items Mode.aiJson b gIdx total max_active today store st inp).inp
          (by rw [hcomp.2.1]; omega) hcomp.2.2.2.2.1 hjrest
          (fun k hk => by rw [hshift k]; exact hpre (b.length + k) (by omega))
          (by rw [hshift (j - b.length)]
              have : b.length + (j - b.length) = j := by omega
              rw [this]
              exact hq)
        simp only [run_batches, hcomp.1]
        refine ⟨hrec.1, ?_, ?_, ?_⟩
        · rw [hrec.2.1, hcomp.2.1]
          omega
        · rw [presentsOf_append, presentsOf_append]
          simp only [List.length_append, presentsOf, List.length_nil]
          rw [hcomp.2.2.1, hrec.2.2.1]
          omega
        · intro d
          rw [finalCheckpoint_append, finalCheckpoint_append]
          simp only [finalCheckpoint]
          exact hrec.2.2.2 _

lemma chunksFuel_flatten {α : Type} : ∀ (f : Nat) (l : List α), l.length ≤ f →
    (chunksFuel f l).flatten = l := by
  intro f
  induction f with
  | zero =>
    intro l h
    cases l with
    | nil => rfl
    | cons a t => simp at h
  | succ f ih =>
    intro l h
    cases l with
    | nil => rfl
    | cons a t =>
      simp only [chunksFuel, List.flatten_cons]
      rw [ih ((a :: t).drop BATCH_SIZE)
        (by simp only [List.length_drop, List.length_cons, BATCH_SIZE]
            simp only [List.length_cons] at h
            omega)]
      exact List.take_append_drop _ _

lemma chunks_flatten {α : Type} (l : List α) : (chunks l).flatten = l :=
  chunksFuel_flatten l.length l (Nat.le_refl _)

lemma run_batch_items_presents_prefix (mode : Mode) (items : List GitHubRepo) :
    ∀ (gIdx total max_active : Nat) (today : Int) (store : Storage) (st : ImportState)
      (inp : Inputs),
      presentsOf (run_batch_items mode items gIdx total max_active today store st
        inp).events <+: items.map GitHubRepo.name ∧
      ((run_batch_items mode items gIdx total max_active today store st inp).exit =
          .finished →
        presentsOf (run_batch_items mode items gIdx total max_active today store st
          inp).events = items.map GitHubRepo.name) := by
  induction items with
  | nil =>
    intro gIdx total max_active today store st inp
    exact ⟨⟨[], rfl⟩, fun _ => rfl⟩
  | cons repo rest ih =>
    intro gIdx total max_active today store st inp
    have hstep := stepRepo_trace mode repo gIdx total max_active today store st inp
    cases hk : (stepRepo mode repo gIdx total max_active today store st inp).kind
    case quit =>
      have hqe := quitEvents_trace mode
        (stepRepo mode repo gIdx total max_active today store st inp).state gIdx total
      simp only [run_batch_items, hk]
      constructor
      · rw [presentsOf_append, hstep.1, hqe.1]
        exact ⟨rest.map GitHubRepo.name, rfl⟩
      · intro hfin
        simp at hfin
    case raised =>
      simp only [run_batch_items, hk]
      constructor
      · rw [hstep.1]
        exact ⟨rest.map GitHubRepo.name, rfl⟩
      · intro hfin
        simp at hfin
    case next =>
      have hrec := ih (gIdx + 1) total max_active today
        (stepRepo mode repo gIdx total max_active today store st inp).store
        (stepRepo mode repo gIdx total max_active today store st inp).state
        (stepRepo mode repo gIdx total max_active today store st inp).inp
      simp only [run_batch_items, hk]
      constructor
      · rw [presentsOf_append, presentsOf_append, hstep.1]
        simp only [presentsOf, List.nil_append, List.map_cons]
        obtain ⟨t, ht⟩ := hrec.1
        exact ⟨t, by simp [← ht]⟩
      · intro hfin
        rw [presentsOf_append, presentsOf_append, hstep.1]
        simp only [presentsOf, List.nil_append, List.map_cons]
        rw [hrec.2 hfin]
        simp

lemma run_batches_presents_prefix (mode : Mode) (bs : List (List GitHubRepo)) :
    ∀ (batch_num total_batches gIdx total max_active : Nat) (today : Int) (store : Storage)
      (st : ImportState) (inp : Inputs),
      presentsOf (run_batches mode bs batch_num total_batches gIdx total max_active today
        store st inp).events <+: bs.flatten.map GitHubRepo.name ∧
      ((run_batches mode bs batch_num total_batches gIdx total max_active today store st
          inp).exit = .finished →
        presentsOf (run_batches mode bs batch_num total_batches gIdx total max_active today
          store st inp).events = bs.flatten.map GitHubRepo.name) := by
  induction bs with
  | nil =>
    intro batch_num total_batches gIdx total max_active today store st inp
    exact ⟨⟨[], rfl⟩, fun _ => rfl⟩
  | cons b rest ih =>
    intro batch_num total_batches gIdx total max_active today store st inp
    have hin := run_batch_items_presents_prefix mode b gIdx total max_active today store st
      inp
    have hext : ∀ l : List String, l <+: b.map GitHubRepo.name →
        l <+: (b :: rest).flatten.map GitHubRepo.name := by
      intro l hl
      obtain ⟨t, ht⟩ := hl
      exact ⟨t ++ rest.flatten.map GitHubRepo.name,
        by simp [← ht, List.flatten_cons]⟩
    cases he : (run_batch_items mode b gIdx total max_active today store st inp).exit
    case pausedQuit =>
      simp only [run_batches, he]
      exact ⟨hext _ hin.1, fun hfin => by simp at hfin⟩
    case raisedExc =>
      simp only [run_batches, he]
      exact ⟨hext _ hin.1, fun hfin => by simp at hfin⟩
    case finished =>
      have hbeq := hin.2 he
      have hglue : ∀ (l : List String), l <+: rest.flatten.map GitHubRepo.name →
          b.map GitHubRepo.name ++ l <+: (b :: rest).flatten.map GitHubRepo.name := by
        intro l hl
        obtain ⟨t, ht⟩ := hl
        exact ⟨t, by simp [← ht, List.flatten_cons, List.append_assoc]⟩
      cases mode
      case interactive =>
        by_cases hlt : batch_num < total_batches
        · by_cases hq : (lowerStr (trimStr
              ((run_batch_items Mode.interactive b gIdx total max_active today store st
                inp).inp.batchResponses.headD "")) == "q"
              || lowerStr (trimStr ((run_batch_items Mode.interactive b gIdx total max_active
                today store st inp).inp.batchResponses.headD "")) == "quit"
              || lowerStr (trimStr ((run_batch_items Mode.interactive b gIdx total max_active
                today store st inp).inp.batchResponses.headD "")) == "n"
              || lowerStr (trimStr ((run_batch_items Mode.interactive b gIdx total max_active
                today store st inp).inp.batchResponses.headD "")) == "no") = true
          · simp only [run_batches, he, if_pos hlt, if_pos hq]
            constructor
            · rw [presentsOf_append, presentsOf_append, hbeq]
              simp only [presentsOf, List.append_nil]
              exact hext _ (List.prefix_refl _)
            · intro hfin
              simp at hfin
          · have hrec := ih (batch_num + 1) total_batches (gIdx + b.length) total max_active
              today
              (run_batch_items Mode.interactive b gIdx total max_active today store st
                inp).store
              (run_batch_items Mode.interactive b gIdx total max_active today store st
                inp).state
              (tailBatchResponses (run_batch_items Mode.interactive b gIdx total max_active
                today store st inp).inp)
            simp only [run_batches, he, if_pos hlt, if_neg hq]
            constructor
            · rw [presentsOf_append, presentsOf_append, hbeq]
              simp only [presentsOf, List.append_nil]
              exact hglue _ hrec.1
            · intro hfin
              rw [presentsOf_append, presentsOf_append, hbeq]
              simp only [presentsOf, List.append_nil]
              rw [hrec.2 hfin]
              simp [List.flatten_cons]
        · have hrec := ih (batch_num + 1) total_batches (gIdx + b.length) total max_active
            today
            (run_batch_items Mode.interactive b gIdx total max_active today store st
              inp).store
            (run_batch_items Mode.interactive b gIdx total max_active today store st
              inp).state
            (run_batch_items Mode.interactive b gIdx total max_active today store st inp).inp
          simp only [run_batches, he, if_neg hlt]
          constructor
          · rw [presentsOf_append, presentsOf_append, hbeq]
            simp only [presentsOf, List.append_nil]
            exact hglue _ hrec.1
          · intro hfin
            rw [presentsOf_append, presentsOf_append, hbeq]
            simp only [presentsOf, List.append_nil]
            rw [hrec.2 hfin]
            simp [List.flatten_cons]
      case aiPlain =>
        have hrec := ih (batch_num + 1) total_batches (gIdx + b.length) total max_active today
          (run_batch_items Mode.aiPlain b gIdx total max_active today store st inp).store
          (run_batch_items Mode.aiPlain b gIdx total max_active today store st inp).state
          (run_batch_items Mode.aiPlain b gIdx total max_active today store st inp).inp
        simp only [run_batches, he]
        constructor
        · rw [presentsOf_append, hbeq]
          exact hglue _ hrec.1
        · intro hfin
          rw [presentsOf_append, hbeq]
          rw [hrec.2 hfin]
          simp [List.flatten_cons]
      case aiJson =>
        have hrec := ih (batch_num + 1) total_batches (gIdx + b.length) total max_active today
          (run_batch_items Mode.aiJson b gIdx total max_active today store st inp).store
          (run_batch_items Mode.aiJson b gIdx total max_active today store st inp).state
          (run_batch_items Mode.aiJson b gIdx total max_active today store st inp).inp
        simp only [run_batches, he]
        constructor
        · rw [presentsOf_append, presentsOf_append, hbeq]
          simp only [presentsOf, List.append_nil]
          exact hglue _ hrec.1
        · intro hfin
          rw [presentsOf_append, presentsOf_append, hbeq]
          simp only [presentsOf, List.append_nil]
          rw [hrec.2 hfin]
          simp [List.flatten_cons]

lemma statsState_position (st : ImportState) (total_repos filtered_out remaining : Nat) :
    (statsState st total_repos filtered_out remaining).current_position =
      st.current_position := rfl

lemma import_run_unfold (mode : Mode) (kept : List GitHubRepo)
    (total_repos filtered_out max_active : Nat) (today : Int) (store : Storage)
    (state0 : ImportState) (inp : Inputs) (hk : kept.isEmpty = false) :
    import_run mode kept total_repos filtered_out max_active today store state0 inp =
      match (run_batches mode
      (chunks (kept.drop (statsState state0 total_repos filtered_out
        kept.length).current_position)) 1
      (((kept.drop (statsState state0 total_repos filtered_out
        kept.length).current_position).length + BATCH_SIZE - 1) / BATCH_SIZE)
      ((statsState state0 total_repos filtered_out kept.length).current_position + 1)
      kept.length max_active today store
      (statsState state0 total_repos filtered_out kept.length) inp).exit with
      | .finished =>
        ⟨(run_batches mode
      (chunks (kept.drop (statsState state0 total_repos filtered_out
        kept.length).current_position)) 1
      (((kept.drop (statsState state0 total_repos filtered_out
        kept.length).current_position).length + BATCH_SIZE - 1) / BATCH_SIZE)
      ((statsState state0 total_repos filtered_out kept.length).current_position + 1)
      kept.length max_active today store
      (statsState state0 total_repos filtered_out kept.length) inp).store, (run_batches mode
      (chunks (kept.drop (statsState state0 total_repos filtered_out
        kept.length).current_position)) 1
      (((kept.drop (statsState state0 total_repos filtered_out
        kept.length).current_position).length + BATCH_SIZE - 1) / BATCH_SIZE)
      ((statsState state0 total_repos filtered_out kept.length).current_position + 1)
      kept.length max_active today store
      (statsState state0 total_repos filtered_out kept.length) inp).state, (run_batches mode
      (chunks (kept.drop (statsState state0 total_repos filtered_out
        kept.length).current_position)) 1
      (((kept.drop (statsState state0 total_repos filtered_out
        kept.length).current_position).length + BATCH_SIZE - 1) / BATCH_SIZE)
      ((statsState state0 total_repos filtered_out kept.length).current_position + 1)
      kept.length max_active today store
      (statsState state0 total_repos filtered_out kept.length) inp).events ++ [.clearState], .completed⟩
      | .pausedQuit => ⟨(run_batches mode
      (chunks (kept.drop (statsState state0 total_repos filtered_out
        kept.length).current_position)) 1
      (((kept.drop (statsState state0 total_repos filtered_out
        kept.length).current_position).length + BATCH_SIZE - 1) / BATCH_SIZE)
      ((statsState state0 total_repos filtered_out kept.length).current_position + 1)
      kept.length max_active today store
      (statsState state0 total_repos filtered_out kept.length) inp).store, (run_batches mode
      (chunks (kept.drop (statsState state0 total_repos filtered_out
        kept.length).current_position)) 1
      (((kept.drop (statsState state0 total_repos filtered_out
        kept.length).current_position).length + BATCH_SIZE - 1) / BATCH_SIZE)
      ((statsState state0 total_repos filtered_out kept.length).current_position + 1)
      kept.length max_active today store
      (statsState state0 total_repos filtered_out kept.length) inp).state, (run_batches mode
      (chunks (kept.drop (statsState state0 total_repos filtered_out
        kept.length).current_position)) 1
      (((kept.drop (statsState state0 total_repos filtered_out
        kept.length).current_position).length + BATCH_SIZE - 1) / BATCH_SIZE)
      ((statsState state0 total_repos filtered_out kept.length).current_position + 1)
      kept.length max_active today store
      (statsState state0 total_repos filtered_out kept.length) inp).events, .paused⟩
      | .raisedExc => ⟨(run_batches mode
      (chunks (kept.drop (statsState state0 total_repos filtered_out
        kept.length).current_position)) 1
      (((kept.drop (statsState state0 total_repos filtered_out
        kept.length).current_position).length + BATCH_SIZE - 1) / BATCH_SIZE)
      ((statsState state0 total_repos filtered_out kept.length).current_position + 1)
      kept.length max_active today store
      (statsState state0 total_repos filtered_out kept.length) inp).store, (run_batches mode
      (chunks (kept.drop (statsState state0 total_repos filtered_out
        kept.length).current_position)) 1
      (((kept.drop (statsState state0 total_repos filtered_out
        kept.length).current_position).length + BATCH_SIZE - 1) / BATCH_SIZE)
      ((statsState state0 total_repos filtered_out kept.length).current_position + 1)
      kept.length max_active today store
      (statsState state0 total_repos filtered_out kept.length) inp).state, (run_batches mode
      (chunks (kept.drop (statsState state0 total_repos filtered_out
        kept.length).current_position)) 1
      (((kept.drop (statsState state0 total_repos filtered_out
        kept.length).current_position).length + BATCH_SIZE - 1) / BATCH_SIZE)
      ((statsState state0 total_repos filtered_out kept.length).current_position + 1)
      kept.length max_active today store
      (statsState state0 total_repos filtered_out kept.length) inp).events, .raised⟩ := by
  unfold import_run
  rw [if_neg (by simp [hk])]

lemma import_run_quit_seq (mode : Mode) (hm : mode ≠ .interactive) (kept : List GitHubRepo)
    (total_repos filtered_out max_active : Nat) (today : Int) (store : Storage)
    (state0 : ImportState) (inp : Inputs) (j : Nat)
    (hfail : inp.failures = [])
    (hj : j < kept.length - state0.current_position)
    (hpre : ∀ k, k < j → quitLine (lineAt inp k) = false)
    (hq : quitLine (lineAt inp j) = true) :
    (import_run mode kept total_repos filtered_out max_active today store state0
      inp).outcome = .paused ∧
    (import_run mode kept total_repos filtered_out max_active today store state0
      inp).state.current_position = state0.current_position + j ∧
    (presentsOf (import_run mode kept total_repos filtered_out max_active today store state0
      inp).events).length = j + 1 ∧
    (∀ d, finalCheckpoint (import_run mode kept total_repos filtered_out max_active today
        store state0 inp).events d =
      some (import_run mode kept total_repos filtered_out max_active today store state0
        inp).state) := by
  have hkne : kept.isEmpty = false := by
    cases kept with
    | nil => simp at hj
    | cons a t => rfl
  have hjf : j < (chunks (kept.drop (statsState state0 total_repos filtered_out
      kept.length).current_position)).flatten.length := by
    rw [chunks_flatten, List.length_drop, statsState_position]
    exact hj
  have hb := run_batches_quit_seq mode hm
    (chunks (kept.drop (statsState state0 total_repos filtered_out
      kept.length).current_position)) j 1
    (((kept.drop (statsState state0 total_repos filtered_out
      kept.length).current_position).length + BATCH_SIZE - 1) / BATCH_SIZE)
    ((statsState state0 total_repos filtered_out kept.length).current_position + 1)
    kept.length max_active today store
    (statsState state0 total_repos filtered_out kept.length) inp rfl hfail hjf hpre hq
  rw [import_run_unfold mode kept total_repos filtered_out max_active today store state0 inp
    hkne]
  simp only [hb.1]
  exact ⟨by simp, hb.2.1, hb.2.2.1, hb.2.2.2⟩

/-- C2: (a) if the quit token arrives at relative offset j of the remaining
stream — global 1-based item i = current_position + j + 1 of the kept list —
after j completed items, the machine-mode run pauses and the persisted
checkpoint records current_position = i - 1, the count of fully processed
items, not incremented for the aborted item (the durable file's last write
is exactly the returned state); (b) in every mode, a run loaded from a
checkpoint presents only items of the suffix kept[current_position:], in
order — a prefix of that suffix, the whole suffix when the run completes —
so no item at index at or below current_position is ever re-presented. -/
theorem C2_quit_checkpoint_and_resume_suffix :
    (∀ (mode : Mode), mode ≠ .interactive →
      ∀ (kept : List GitHubRepo) (total_repos filtered_out max_active : Nat) (today : Int)
        (store : Storage) (state0 : ImportState) (inp : Inputs) (j : Nat),
        inp.failures = [] →
        j < kept.length - state0.current_position →
        (∀ k, k < j → quitLine (lineAt inp k) = false) →
        quitLine (lineAt inp j) = true →
        (import_run mode kept total_repos filtered_out max_active today store state0
          inp).outcome = .paused ∧
        (import_run mode kept total_repos filtered_out max_active today store state0
          inp).state.current_position = state0.current_position + j ∧
        (presentsOf (import_run mode kept total_repos filtered_out max_active today store
          state0 inp).events).length = j + 1 ∧
        (∀ d, finalCheckpoint (import_run mode kept total_repos filtered_out max_active today
            store state0 inp).events d =
          some (import_run mode kept total_repos filtered_out max_active today store state0
            inp).state)) ∧
    (∀ (mode : Mode) (kept : List GitHubRepo) (total_repos filtered_out max_active : Nat)
      (today : Int) (store : Storage) (state0 : ImportState) (inp : Inputs),
      presentsOf (import_run mode kept total_repos filtered_out max_active today store state0
        inp).events <+: (kept.drop state0.current_position).map GitHubRepo.name ∧
      ((import_run mode kept total_repos filtered_out max_active today store state0
          inp).outcome = .completed →
        presentsOf (import_run mode kept total_repos filtered_out max_active today store
          state0 inp).events = (kept.drop state0.current_position).map GitHubRepo.name)) := by
  constructor
  · intro mode hm kept total_repos filtered_out max_active today store state0 inp j hfail hj
      hpre hq
    exact import_run_quit_seq mode hm kept total_repos filtered_out max_active today store
      state0 inp j hfail hj hpre hq
  · intro mode kept total_repos filtered_out max_active today store state0 inp
    by_cases hk : kept.isEmpty
    · have hkn : kept = [] := List.isEmpty_iff.mp hk
      subst hkn
      simp [import_run, presentsOf]
    · have hkne : kept.isEmpty = false := by simpa using hk
      have hp := run_batches_presents_prefix mode
        (chunks (kept.drop (statsState state0 total_repos filtered_out
          kept.length).current_position)) 1
        (((kept.drop (statsState state0 total_repos filtered_out
          kept.length).current_position).length + BATCH_SIZE - 1) / BATCH_SIZE)
        ((statsState state0 total_repos filtered_out kept.length).current_position + 1)
        kept.length max_active today store
        (statsState state0 total_repos filtered_out kept.length) inp
      rw [chunks_flatten] at hp
      rw [import_run_unfold mode kept total_repos filtered_out max_active today store state0
        inp hkne]
      cases he : (run_batches mode
      (chunks (kept.drop (statsState state0 total_repos filtered_out
        kept.length).current_position)) 1
      (((kept.drop (statsState state0 total_repos filtered_out
        kept.length).current_position).length + BATCH_SIZE - 1) / BATCH_SIZE)
      ((statsState state0 total_repos filtered_out kept.length).current_position + 1)
      kept.length max_active today store
      (statsState state0 total_repos filtered_out kept.length) inp).exit
      · simp only [he] at hp ⊢
        constructor
        · rw [presentsOf_append]
          simp only [presentsOf, List.append_nil]
          exact hp.1
        · intro _
          rw [presentsOf_append]
          simp only [presentsOf, List.append_nil]
          exact hp.2 trivial
      · simp only [he] at hp ⊢
        exact ⟨hp.1, fun habs => by simp at habs⟩
      · simp only [he] at hp ⊢
        exact ⟨hp.1, fun habs => by simp at habs⟩

/-- C2 witness: three candidates, machine plain mode, the first line archives
and the second is QUIT (case-insensitive): the run pauses at global item 2
and the checkpoint holds current_position = 1, the count of fully processed
items. -/
theorem C2_witness :
    (import_run Mode.aiPlain [demoRepo "r1", demoRepo "r2", demoRepo "r3"] 3 0 5 0 {}
      (create_new_import_state "s") { lines := [some "archive", some "QUIT"] }).outcome =
      .paused ∧
    (import_run Mode.aiPlain [demoRepo "r1", demoRepo "r2", demoRepo "r3"] 3 0 5 0 {}
      (create_new_import_state "s")
      { lines := [some "archive", some "QUIT"] }).state.current_position = 1 := by
  have h := C2_quit_checkpoint_and_resume_suffix.1 Mode.aiPlain (by decide)
    [demoRepo "r1", demoRepo "r2", demoRepo "r3"] 3 0 5 0 {} (create_new_import_state "s")
    { lines := [some "archive", some "QUIT"] } 1 rfl (by decide)
    (fun k hk => by
      have hk0 : k = 0 := by omega
      subst hk0
      decide)
    (by decide)
  exact ⟨h.1, by rw [h.2.1]; rfl⟩

/-- C10: end-of-file on stdin while awaiting a machine-mode decision is
treated exactly like the quit token.  (a) The per-item step on an
end-of-file read equals the step on a literal quit line, in both the plain
and the JSON sub-mode (the EOFError handler substitutes the quit response);
(b) at the run level, end-of-file at relative offset j after j completed
items pauses the run cleanly with the checkpoint saved at the last fully
processed item, exactly as a quit token would. -/
theorem C10_eof_treated_as_quit :
    (∀ (repo : GitHubRepo) (index total max_active : Nat) (today : Int) (store : Storage)
      (st : ImportState) (restL : List (Option String)) (keys : List String)
      (confirms : List Bool) (bresp : List String) (fails : List Bool) (json_output : Bool),
      process_repo_ai_mode repo index total max_active today store st
        ⟨none :: restL, keys, confirms, bresp, fails⟩ json_output =
      process_repo_ai_mode repo index total max_active today store st
        ⟨some "quit" :: restL, keys, confirms, bresp, fails⟩ json_output) ∧
    (∀ (mode : Mode), mode ≠ .interactive →
      ∀ (kept : List GitHubRepo) (total_repos filtered_out max_active : Nat) (today : Int)
        (store : Storage) (state0 : ImportState) (inp : Inputs) (j : Nat),
        inp.failures = [] →
        j < kept.length - state0.current_position →
        (∀ k, k < j → quitLine (lineAt inp k) = false) →
        lineAt inp j = none →
        (import_run mode kept total_repos filtered_out max_active today store state0
          inp).outcome = .paused ∧
        (import_run mode kept total_repos filtered_out max_active today store state0
          inp).state.current_position = state0.current_position + j ∧
        (∀ d, finalCheckpoint (import_run mode kept total_repos filtered_out max_active today
            store state0 inp).events d =
          some (import_run mode kept total_repos filtered_out max_active today store state0
            inp).state)) := by
  constructor
  · intro repo index total max_active today store st restL keys confirms bresp fails
      json_output
    rfl
  · intro mode hm kept total_repos filtered_out max_active today store state0 inp j hfail hj
      hpre heof
    have hq : quitLine (lineAt inp j) = true := by rw [heof]; rfl
    have h := import_run_quit_seq mode hm kept total_repos filtered_out max_active today
      store state0 inp j hfail hj hpre hq
    exact ⟨h.1, h.2.1, h.2.2.2⟩

/-- C10 witness: one archive line then end-of-file at the second item — the
run pauses with current_position = 1. -/
theorem C10_witness :
    (import_run Mode.aiJson [demoRepo "r1", demoRepo "r2", demoRepo "r3"] 3 0 5 0 {}
      (create_new_import_state "s") { lines := [some "archive"] }).outcome = .paused ∧
    (import_run Mode.aiJson [demoRepo "r1", demoRepo "r2", demoRepo "r3"] 3 0 5 0 {}
      (create_new_import_state "s")
      { lines := [some "archive"] }).state.current_position = 1 := by
  have h := C10_eof_treated_as_quit.2 Mode.aiJson (by decide)
    [demoRepo "r1", demoRepo "r2", demoRepo "r3"] 3 0 5 0 {} (create_new_import_state "s")
    { lines := [some "archive"] } 1 rfl (by decide)
    (fun k hk => by
      have hk0 : k = 0 := by omega
      subst hk0
      decide)
    (by decide)
  exact ⟨h.1, by rw [h.2.1]; rfl⟩

/-! Failure-propagation lemmas: the loop has no per-item exception handler,
so a raised materialization aborts the run. -/

lemma run_batch_items_raised_seq (mode : Mode) (hm : mode ≠ .interactive)
    (items : List GitHubRepo) :
    ∀ (j gIdx total max_active : Nat) (today : Int) (store : Storage) (st : ImportState)
      (inp : Inputs),
      st.current_position + 1 = gIdx →
      inp.failures = List.replicate j false ++ [true] →
      j < items.length →
      (∀ k, k ≤ j → quitLine (lineAt inp k) = false ∧ skipLine (lineAt inp k) = false) →
      (run_batch_items mode items gIdx total max_active today store st inp).exit =
        .raisedExc ∧
      (run_batch_items mode items gIdx total max_active today store st
        inp).state.current_position = st.current_position + j ∧
      (presentsOf (run_batch_items mode items gIdx total max_active today store st
        inp).events).length = j + 1 ∧
      (j = 0 → (run_batch_items mode items gIdx total max_active today store st inp).state =
        st) ∧
      (∀ d, finalCheckpoint (run_batch_items mode items gIdx total max_active today store st
          inp).events d =
        if j = 0 then d
        else some (run_batch_items mode items gIdx total max_active today store st
          inp).state) := by
  induction items with
  | nil =>
    intro j gIdx total max_active today store st inp _ _ hj _
    simp at hj
  | cons repo rest ih =>
    intro j gIdx total max_active today store st inp hpos hfail hj hgood
    have hstep := stepRepo_trace mode repo gIdx total max_active today store st inp
    have hks := stepRepo_kind_state mode repo gIdx total max_active today store st inp
    cases j with
    | zero =>
      have hg0 := hgood 0 (Nat.le_refl _)
      rw [lineAt_zero] at hg0
      have hf0 : inp.failures.headD false = true := by rw [hfail]; rfl
      have hraise := stepRepo_ai_raised mode hm repo gIdx total max_active today store st inp
        hg0.1 hg0.2 hf0
      have hfrozen := hks.2.1 hraise
      simp only [run_batch_items, hraise]
      refine ⟨by simp, by simp [hfrozen], ?_, fun _ => hfrozen, ?_⟩
      · rw [hstep.1]
        rfl
      · intro d
        simp [hstep.2.2.2 d]
    | succ j' =>
      have hg0 := hgood 0 (Nat.zero_le _)
      rw [lineAt_zero] at hg0
      have hf0 : inp.failures.headD false = false := by
        rw [hfail, List.replicate_succ]
        rfl
      have hnext := stepRepo_ai_next mode hm repo gIdx total max_active today store st inp
        hg0.1 hf0
      have hpos1 := hks.2.2 hnext.1
      have hfails : (stepRepo mode repo gIdx total max_active today store st
          inp).inp.failures = List.replicate j' false ++ [true] := by
        rw [hnext.2.2, hg0.2, hfail, List.replicate_succ]
        simp
      have hshift : ∀ k, lineAt (stepRepo mode repo gIdx total max_active today store st
          inp).inp k = lineAt inp (k + 1) := by
        intro k
        rw [lineAt, hnext.2.1, getD_tail]
        rfl
      have hrec := ih j' (gIdx + 1) total max_active today
        (stepRepo mode repo gIdx total max_active today store st inp).store
        (stepRepo mode repo gIdx total max_active today store st inp).state
        (stepRepo mode repo gIdx total max_active today store st inp).inp
        (by rw [hpos1]) hfails
        (by simpa using Nat.lt_of_succ_lt_succ hj)
        (fun k hk => by rw [hshift k]; exact hgood (k + 1) (by omega))
      simp only [run_batch_items, hnext.1]
      refine ⟨hrec.1, ?_, ?_, ?_, ?_⟩
      · rw [hrec.2.1, hpos1]
        omega
      · rw [presentsOf_append, presentsOf_append, hstep.1]
        simp only [presentsOf, List.length_append, List.length_cons, List.length_nil,
          List.nil_append]
        rw [hrec.2.2.1]
        omega
      · intro habs
        exact absurd habs (Nat.succ_ne_zero j')
      · intro d
        rw [finalCheckpoint_append, finalCheckpoint_append, hstep.2.2.2 d]
        simp only [finalCheckpoint]
        rw [hrec.2.2.2.2 (some (stepRepo mode repo gIdx total max_active today store st
          inp).state)]
        by_cases hz : j' = 0
        · rw [if_pos hz, if_neg (Nat.succ_ne_zero j'), hrec.2.2.2.1 hz]
        · rw [if_neg hz, if_neg (Nat.succ_ne_zero j')]

lemma run_batch_items_complete_fail_seq (mode : Mode) (hm : mode ≠ .interactive)
    (items : List GitHubRepo) :
    ∀ (m gIdx total max_active : Nat) (today : Int) (store : Storage) (st : ImportState)
      (inp : Inputs),
      st.current_position + 1 = gIdx →
      inp.failures = List.replicate m false ++ [true] →
      items.length ≤ m →
      (∀ k, k < items.length → quitLine (lineAt inp k) = false ∧
        skipLine (lineAt inp k) = false) →
      (run_batch_items mode items gIdx total max_active today store st inp).exit =
        .finished ∧
      (run_batch_items mode items gIdx total max_active today store st
        inp).state.current_position = st.current_position + items.length ∧
      (presentsOf (run_batch_items mode items gIdx total max_active today store st
        inp).events).length = items.length ∧
      (run_batch_items mode items gIdx total max_active today store st inp).inp.lines =
        inp.lines.drop items.length ∧
      (run_batch_items mode items gIdx total max_active today store st inp).inp.failures =
        List.replicate (m - items.length) false ++ [true] ∧
      (items.isEmpty = true →
        (run_batch_items mode items gIdx total max_active today store st inp).state = st) ∧
      (∀ d, finalCheckpoint (run_batch_items mode items gIdx total max_active today store st
          inp).events d =
        if items.isEmpty then d
        else some (run_batch_items mode items gIdx total max_active today store st
          inp).state) := by
  induction items with
  | nil =>
    intro m gIdx total max_active today store st inp hpos hfail _ _
    refine ⟨rfl, rfl, rfl, rfl, by simpa using hfail, fun _ => rfl, fun d => rfl⟩
  | cons repo rest ih =>
    intro m gIdx total max_active today store st inp hpos hfail hlen hgood
    have hstep := stepRepo_trace mode repo gIdx total max_active today store st inp
    have hks := stepRepo_kind_state mode repo gIdx total max_active today store st inp
    have hg0 := hgood 0 (Nat.succ_pos _)
    rw [lineAt_zero] at hg0
    have hm1 : 1 ≤ m := le_trans (Nat.succ_le_succ (Nat.zero_le _)) hlen
    have hf0 : inp.failures.headD false = false := by
      rw [hfail]
      cases m with
      | zero => omega
      | succ m' => rw [List.replicate_succ]; rfl
    have hnext := stepRepo_ai_next mode hm repo gIdx total max_active today store st inp
      hg0.1 hf0
    have hpos1 := hks.2.2 hnext.1
    have hfails : (stepRepo mode repo gIdx total max_active today store st
        inp).inp.failures = List.replicate (m - 1) false ++ [true] := by
      rw [hnext.2.2, hg0.2, hfail]
      cases m with
      | zero => omega
      | succ m' =>
        rw [List.replicate_succ]
        simp
    have hshift : ∀ k, lineAt (stepRepo mode repo gIdx total max_active today store st
        inp).inp k = lineAt inp (k + 1) := by
      intro k
      rw [lineAt, hnext.2.1, getD_tail]
      rfl
    have hrec := ih (m - 1) (gIdx + 1) total max_active today
      (stepRepo mode repo gIdx total max_active today store st inp).store
      (stepRepo mode repo gIdx total max_active today store st inp).state
      (stepRepo mode repo gIdx total max_active today store st inp).inp
      (by rw [hpos1]) hfails
      (by simp only [List.length_cons] at hlen; omega)
      (fun k hk => by
        rw [hshift k]
        exact hgood (k + 1) (by simpa using Nat.succ_lt_succ hk))
    simp only [run_batch_items, hnext.1]
    refine ⟨hrec.1, ?_, ?_, ?_, ?_, ?_, ?_⟩
    · rw [hrec.2.1, hpos1]
      simp only [List.length_cons]
      omega
    · rw [presentsOf_append, presentsOf_append, hstep.1]
      simp only [presentsOf, List.length_append, List.length_cons, List.length_nil,
        List.nil_append]
      rw [hrec.2.2.1]
      omega
    · rw [hrec.2.2.2.1, hnext.2.1]
      rw [← List.drop_one, List.drop_drop]
      simp [Nat.add_comm]
    · rw [hrec.2.2.2.2.1]
      simp only [List.length_cons]
      congr 2
      omega
    · intro habs
      simp at habs
    · intro d
      rw [finalCheckpoint_append, finalCheckpoint_append, hstep.2.2.2 d]
      simp only [finalCheckpoint]
      rw [hrec.2.2.2.2.2.2 _]
      by_cases hre : rest.isEmpty
      · rw [if_pos hre, if_neg (by simp), hrec.2.2.2.2.2.1 hre]
      · rw [if_neg hre, if_neg (by simp)]

lemma run_batches_raised_seq (mode : Mode) (hm : mode ≠ .interactive)
    (bs : List (List GitHubRepo)) :
    ∀ (j batch_num total_batches gIdx total max_active : Nat) (today : Int) (store : Storage)
      (st : ImportState) (inp : Inputs),
      st.current_position + 1 = gIdx →
      inp.failures = List.replicate j false ++ [true] →
      j < bs.flatten.length →
      (∀ k, k ≤ j → quitLine (lineAt inp k) = false ∧ skipLine (lineAt inp k) = false) →
      (run_batches mode bs batch_num total_batches gIdx total max_active today store st
        inp).exit = .raisedExc ∧
      (run_batches mode bs batch_num total_batches gIdx total max_active today store st
        inp).state.current_position = st.current_position + j ∧
      (presentsOf (run_batches mode bs batch_num total_batches gIdx total max_active today
        store st inp).events).length = j + 1 ∧
      (j = 0 → (run_batches mode bs batch_num total_batches gIdx total max_active today store
        st inp).state = st) ∧
      (∀ d, finalCheckpoint (run_batches mode bs batch_num total_batches gIdx total
          max_active today store st inp).events d =
        if j = 0 then d
        else some (run_batches mode bs batch_num total_batches gIdx total max_active today
          store st inp).state) := by
  induction bs with
  | nil =>
    intro j batch_num total_batches gIdx total max_active today store st inp _ _ hj _
    simp at hj
  | cons b rest ih =>
    intro j batch_num total_batches gIdx total max_active today store st inp hpos hfail hj
      hgood
    by_cases hjb : j < b.length
    · have hin := run_batch_items_raised_seq mode hm b j gIdx total max_active today store st
        inp hpos hfail hjb hgood
      simp only [run_batches, hin.1]
      exact ⟨by simp, hin.2.1, hin.2.2.1, hin.2.2.2.1, hin.2.2.2.2⟩
    · have hble : b.length ≤ j := Nat.le_of_not_lt hjb
      have hcomp := run_batch_items_complete_fail_seq mode hm b j gIdx total max_active today
        store st inp hpos hfail hble (fun k hk => hgood k (by omega))
      have hshift : ∀ k, lineAt (run_batch_items mode b gIdx total max_active today store st
          inp).inp k = lineAt inp (b.length + k) := by
        intro k
        rw [lineAt, hcomp.2.2.2.1, getD_drop]
        rfl
      have hjrest : j - b.length < rest.flatten.length := by
        simp only [List.flatten_cons, List.length_append] at hj
        omega
      have hgood2 : ∀ k, k ≤ j - b.length →
          quitLine (lineAt (run_batch_items mode b gIdx total max_active today store st
            inp).inp k) = false ∧
          skipLine (lineAt (run_batch_items mode b gIdx total max_active today store st
            inp).inp k) = false := by
        intro k hk
        rw [hshift k]
        exact hgood (b.length + k) (by omega)
      have hb0 : (run_batch_items mode b gIdx total max_active today store st
          inp).state.current_position + 1 = gIdx + b.length := by
        rw [hcomp.2.1]
        omega
      cases mode
      · exact absurd rfl hm
      · have hrec := ih (j - b.length) (batch_num + 1) total_batches (gIdx + b.length) total
          max_active today
          (run_batch_items Mode.aiPlain b gIdx total max_active today store st inp).store
          (run_batch_items Mode.aiPlain b gIdx total max_active today store st inp).state
          (run_batch_items Mode.aiPlain b gIdx total max_active today store st inp).inp
          hb0 hcomp.2.2.2.2.1 hjrest hgood2
        simp only [run_batches, hcomp.1]
        refine ⟨hrec.1, ?_, ?_, ?_, ?_⟩
        · rw [hrec.2.1, hcomp.2.1]
          omega
        · rw [presentsOf_append]
          simp only [List.length_append]
          rw [hcomp.2.2.1, hrec.2.2.1]
          omega
        · intro hz
          have hbz : b.length = 0 := by omega
          have hbe : b.isEmpty = true := by
            cases b with
            | nil => rfl
            | cons x xs => simp at hbz
          rw [hrec.2.2.2.1 (by omega), hcomp.2.2.2.2.2.1 hbe]
        · intro d
          rw [finalCheckpoint_append]
          rw [hcomp.2.2.2.2.2.2 d, hrec.2.2.2.2 _]
          by_cases hz : j - b.length = 0
          · rw [if_pos hz]
            by_cases hbz : j = 0
            · have hbe : b.isEmpty = true := by
                have : b.length = 0 := by omega
                cases b with
                | nil => rfl
                | cons x xs => simp at this
              rw [if_pos hbz, if_pos hbe]
            · have hbne : b.isEmpty = false := by
                have : b.length ≠ 0 := by omega
                cases b with
                | nil => simp at this
                | cons x xs => rfl
              rw [if_neg hbz, if_neg (by simp [hbne]), hrec.2.2.2.1 hz]
          · rw [if_neg hz, if_neg (by omega)]
      · have hrec := ih (j - b.length) (batch_num + 1) total_batches (gIdx + b.length) total
          max_active today
          (run_batch_items Mode.aiJson b gIdx total max_active today store st inp).store
          (run_batch_items Mode.aiJson b gIdx total max_active today store st inp).state
          (run_batch_items Mode.aiJson b gIdx total max_active today store st inp).inp
          hb0 hcomp.2.2.2.2.1 hjrest hgood2
        simp only [run_batches, hcomp.1]
        refine ⟨hrec.1, ?_, ?_, ?_, ?_⟩
        · rw [hrec.2.1, hcomp.2.1]
          omega
        · rw [presentsOf_append, presentsOf_append]
          simp only [List.length_append, presentsOf, List.length_nil]
          rw [hcomp.2.2.1, hrec.2.2.1]
          omega
        · intro hz
          have hbz : b.length = 0 := by omega
          have hbe : b.isEmpty = true := by
            cases b with
            | nil => rfl
            | cons x xs => simp at hbz
          rw [hrec.2.2.2.1 (by omega), hcomp.2.2.2.2.2.1 hbe]
        · intro d
          rw [finalCheckpoint_append, finalCheckpoint_append]
          simp only [finalCheckpoint]
          rw [hcomp.2.2.2.2.2.2 d, hrec.2.2.2.2 _]
          by_cases hz : j - b.length = 0
          · rw [if_pos hz]
            by_cases hbz : j = 0
            · have hbe : b.isEmpty = true := by
                have : b.length = 0 := by omega
                cases b with
                | nil => rfl
                | cons x xs => simp at this
              rw [if_pos hbz, if_pos hbe]
            · have hbne : b.isEmpty = false := by
                have : b.length ≠ 0 := by omega
                cases b with
                | nil => simp at this
                | cons x xs => rfl
              rw [if_neg hbz, if_neg (by simp [hbne]), hrec.2.2.2.1 hz]
          · rw [if_neg hz, if_neg (by omega)]

/-- C6 counterexample: the claim says an unexpected exception during
materialization is caught at the per-item boundary, recorded as an error
entry, and the loop continues with the next item.  The loop has no such
handler: with two candidates and the failure oracle raising on the first
materialize call, the run aborts (outcome raised), the second item is never
presented, and nothing was recorded — there is no error entry anywhere in
the emitted trace and the checkpoint file is untouched. -/
theorem C6_counterexample :
    (import_run Mode.aiPlain [demoRepo "r1", demoRepo "r2"] 2 0 5 0 {}
      (create_new_import_state "s")
      { lines := [some "archive", some "archive"], failures := [true] }).outcome =
      .raised ∧
    presentsOf (import_run Mode.aiPlain [demoRepo "r1", demoRepo "r2"] 2 0 5 0 {}
      (create_new_import_state "s")
      { lines := [some "archive", some "archive"], failures := [true] }).events = ["r1"] ∧
    finalCheckpoint (import_run Mode.aiPlain [demoRepo "r1", demoRepo "r2"] 2 0 5 0 {}
      (create_new_import_state "s")
      { lines := [some "archive", some "archive"], failures := [true] }).events none =
      none := by
  decide

/-- C6 amended: an unexpected exception while materializing the item at
relative offset j (after j committed items, none of them skips or quits) is
NOT caught at the per-item boundary: it propagates out of the batch loop and
aborts the run (outcome raised), no error entry is recorded and no further
item is presented (exactly j + 1 presentations happen).  The bookkeeping of
already-committed items is preserved: the durable checkpoint still holds the
state saved after the last fully processed item, with current_position =
loaded position + j (for j = 0 the file is simply untouched). -/
theorem C6_exception_aborts_run (mode : Mode) (hm : mode ≠ .interactive)
    (kept : List GitHubRepo) (total_repos filtered_out max_active : Nat) (today : Int)
    (store : Storage) (state0 : ImportState) (inp : Inputs) (j : Nat)
    (hfail : inp.failures = List.replicate j false ++ [true])
    (hj : j < kept.length - state0.current_position)
    (hgood : ∀ k, k ≤ j → quitLine (lineAt inp k) = false ∧
      skipLine (lineAt inp k) = false) :
    (import_run mode kept total_repos filtered_out max_active today store state0
      inp).outcome = .raised ∧
    (import_run mode kept total_repos filtered_out max_active today store state0
      inp).state.current_position = state0.current_position + j ∧
    (presentsOf (import_run mode kept total_repos filtered_out max_active today store state0
      inp).events).length = j + 1 ∧
    (∀ d, finalCheckpoint (import_run mode kept total_repos filtered_out max_active today
        store state0 inp).events d =
      if j = 0 then d
      else some (import_run mode kept total_repos filtered_out max_active today store state0
        inp).state) := by
  have hkne : kept.isEmpty = false := by
    cases kept with
    | nil => simp at hj
    | cons a t => rfl
  have hjf : j < (chunks (kept.drop (statsState state0 total_repos filtered_out
      kept.length).current_position)).flatten.length := by
    rw [chunks_flatten, List.length_drop, statsState_position]
    exact hj
  have hb := run_batches_raised_seq mode hm
    (chunks (kept.drop (statsState state0 total_repos filtered_out
      kept.length).current_position)) j 1
    (((kept.drop (statsState state0 total_repos filtered_out
      kept.length).current_position).length + BATCH_SIZE - 1) / BATCH_SIZE)
    ((statsState state0 total_repos filtered_out kept.length).current_position + 1)
    kept.length max_active today store
    (statsState state0 total_repos filtered_out kept.length) inp rfl hfail hjf hgood
  rw [import_run_unfold mode kept total_repos filtered_out max_active today store state0 inp
    hkne]
  simp only [hb.1]
  exact ⟨by simp, hb.2.1, hb.2.2.1, hb.2.2.2.2⟩

/-- C6 witness: three candidates, archive decisions, the failure oracle
raises on the second materialize call — the run aborts with the checkpoint
still at current_position = 1 and only two items ever presented. -/
theorem C6_witness :
    (import_run Mode.aiPlain [demoRepo "r1", demoRepo "r2", demoRepo "r3"] 3 0 5 0 {}
      (create_new_import_state "s")
      { lines := [some "archive", some "archive", some "archive"],
        failures := [false, true] }).outcome = .raised ∧
    (import_run Mode.aiPlain [demoRepo "r1", demoRepo "r2", demoRepo "r3"] 3 0 5 0 {}
      (create_new_import_state "s")
      { lines := [some "archive", some "archive", some "archive"],
        failures := [false, true] }).state.current_position = 1 := by
  have h := C6_exception_aborts_run Mode.aiPlain (by decide)
    [demoRepo "r1", demoRepo "r2", demoRepo "r3"] 3 0 5 0 {} (create_new_import_state "s")
    { lines := [some "archive", some "archive", some "archive"], failures := [false, true] }
    1 (by decide) (by decide)
    (fun k hk => by
      match k, hk with
      | 0, _ => exact ⟨by decide, by decide⟩
      | 1, _ => exact ⟨by decide, by decide⟩)
  exact ⟨h.1, by rw [h.2.1]; rfl⟩

end Journel
